import Mathlib

/-!
Verification of the FlipFlow lifecycle engine against its specification.

Each definition below is a shallow embedding of a function of the Python
source (`src/flipflow/...`), translated line by line: Python floats become
exact rationals, timestamps become integer epoch seconds, database rows
become structures, the marketplace gateway becomes an explicit outcome
record, and `datetime.now()` becomes a `now` parameter.  Definitions whose
name matches a Python symbol embed that symbol.
-/

namespace FlipFlow

/-- Listing status enumeration (`core/constants.py`, class `ListingStatus`). -/
inductive ListingStatus where
  | draft
  | queued
  | active
  | zombie
  | purgatory
  | sold
  | ended
deriving DecidableEq, Repr

/-- Zombie-record action enumeration (`core/constants.py`, `ZombieAction`
plus `RelistAction.PREVENTIVE_RELIST`). -/
inductive ZombieAction where
  | flagged
  | resurrected
  | purgatored
  | preventiveRelist
deriving DecidableEq, Repr

/-- Offer-record status enumeration (`core/constants.py`, `OfferStatus`). -/
inductive OfferStatus where
  | sent
  | accepted
  | declined
  | expired
deriving DecidableEq, Repr

/-- The `listings` row (`core/models/listing.py`), restricted to the fields
the lifecycle services read or write.  Monetary columns are exact rationals;
`listedAt` is an epoch-seconds timestamp. -/
structure Listing where
  id : Int
  sku : String
  title : String
  ebayItemId : Option String := none
  offerId : Option String := none
  status : ListingStatus := ListingStatus.draft
  daysActive : Int := 0
  totalViews : Int := 0
  watchers : Int := 0
  zombieCycleCount : Int := 0
  photoUrls : List String := []
  mainPhotoIndex : Int := 0
  purchasePrice : ℚ := 0
  listPrice : ℚ := 0
  currentPrice : Option ℚ := none
  shippingCost : ℚ := 0
  adRatePercent : ℚ := 0
  listedAt : Option Int := none
deriving DecidableEq, Repr

/-- The `zombie_records` row (`core/models/zombie_record.py`). -/
structure ZombieRecord where
  listingId : Int
  detectedAt : Int
  daysActiveAtDetection : Int
  viewsAtDetection : Int
  actionTaken : ZombieAction
  resurrectedAt : Option Int := none
  oldItemId : Option String := none
  newItemId : Option String := none
  cycleNumber : Int := 1
deriving DecidableEq, Repr

/-- The `offer_records` row (`core/models/offer_record.py`). -/
structure OfferRecordRow where
  listingId : Int
  buyerId : String
  offerPrice : ℚ
  discountPercent : ℚ
  sentAt : Int
  status : OfferStatus
deriving DecidableEq, Repr

/-- Python truthiness of an optional string (`if x:`): `None` and the empty
string are falsy. -/
def truthyStr : Option String → Bool
  | some s => !s.isEmpty
  | none => false

/-- `listing.current_price or listing.list_price`: Python `or` falls through
to `list_price` when `current_price` is `None` or zero. -/
def currentOrList (l : Listing) : ℚ :=
  match l.currentPrice with
  | some p => if p ≠ 0 then p else l.listPrice
  | none => l.listPrice

/-! ### Rounding

Python `round(x, 2)` rounds half to even (banker's rounding); on the exact
rationals of this embedding that is half-even rounding of `100 * x` to an
integer. -/

/-- Round a rational to the nearest integer, half to even. -/
def roundHalfEven (q : ℚ) : ℤ :=
  let n := ⌊q⌋
  let f := q - n
  if f < 1/2 then n
  else if 1/2 < f then n + 1
  else if Even n then n else n + 1

/-- `round(x, 2)`: round to cents, half to even. -/
def round2 (q : ℚ) : ℚ := (roundHalfEven (q * 100) : ℚ) / 100

/-! ### ProfitFloorCalc (`core/services/gatekeeper/profit_floor.py`) -/

/-- Input schema `ProfitCalcRequest` (`core/schemas/profit.py`). -/
structure ProfitCalcRequest where
  salePrice : ℚ
  purchasePrice : ℚ
  shippingCost : ℚ := 0
  adRatePercent : ℚ := 0
deriving DecidableEq, Repr

/-- Output schema `ProfitCalcResponse` (`core/schemas/profit.py`).
`minimumViablePrice = none` encodes the float infinity the source returns
when the fee multiplier is not positive. -/
structure ProfitCalcResponse where
  salePrice : ℚ
  purchasePrice : ℚ
  shippingCost : ℚ
  ebayFeeRate : ℚ
  ebayFeeAmount : ℚ
  adRatePercent : ℚ
  adFeeAmount : ℚ
  paymentProcessingAmount : ℚ
  perOrderFee : ℚ
  totalFees : ℚ
  netProfit : ℚ
  profitMarginPercent : ℚ
  meetsFloor : Bool
  profitFloor : ℚ
  minimumViablePrice : Option ℚ
deriving DecidableEq, Repr

/-- The configured fee state of `ProfitFloorCalc.__init__`. -/
structure ProfitFloorCalc where
  baseFeeRate : ℚ
  paymentProcessingRate : ℚ
  perOrderFee : ℚ
  profitFloor : ℚ
deriving DecidableEq, Repr

/-- `FlipFlowConfig` fee defaults (`core/config.py`): base fee 0.13, payment
processing 0.029, per-order fee 0.30, profit floor 5.00. -/
def defaultProfitCalc : ProfitFloorCalc :=
  { baseFeeRate := 13/100, paymentProcessingRate := 29/1000,
    perOrderFee := 3/10, profitFloor := 5 }

/-- `ProfitFloorCalc.find_minimum_price`: `none` encodes `float("inf")`. -/
def ProfitFloorCalc.findMinimumPrice (c : ProfitFloorCalc)
    (purchasePrice shipping adRatePercent : ℚ) : Option ℚ :=
  let adRate := adRatePercent / 100
  let feeMultiplier := 1 - c.baseFeeRate - adRate - c.paymentProcessingRate
  if feeMultiplier ≤ 0 then none
  else some ((c.profitFloor + purchasePrice + shipping + c.perOrderFee) / feeMultiplier)

/-- `ProfitFloorCalc.calculate`. -/
def ProfitFloorCalc.calculate (c : ProfitFloorCalc) (r : ProfitCalcRequest) :
    ProfitCalcResponse :=
  let sale := r.salePrice
  let cost := r.purchasePrice
  let shipping := r.shippingCost
  let adRate := r.adRatePercent / 100
  let ebayFee := sale * c.baseFeeRate
  let adFee := sale * adRate
  let paymentFee := sale * c.paymentProcessingRate + c.perOrderFee
  let totalFees := ebayFee + adFee + paymentFee
  let netProfit := sale - cost - shipping - totalFees
  let margin := if 0 < sale then netProfit / sale * 100 else 0
  let minPrice := c.findMinimumPrice cost shipping r.adRatePercent
  { salePrice := round2 sale
    purchasePrice := round2 cost
    shippingCost := round2 shipping
    ebayFeeRate := c.baseFeeRate
    ebayFeeAmount := round2 ebayFee
    adRatePercent := r.adRatePercent
    adFeeAmount := round2 adFee
    paymentProcessingAmount := round2 paymentFee
    perOrderFee := c.perOrderFee
    totalFees := round2 totalFees
    netProfit := round2 netProfit
    profitMarginPercent := round2 margin
    meetsFloor := decide (c.profitFloor ≤ netProfit)
    profitFloor := c.profitFloor
    minimumViablePrice := minPrice.map round2 }

/-! ### Resurrection SKU generation
(`core/services/lifecycle/resurrector.py`, `_generate_resurrection_sku`) -/

/-- Characters before the first occurrence of the two-character pattern
`_R`, i.e. `original_sku.split("_R")[0]`. -/
def skuBase : List Char → List Char
  | [] => []
  | c :: rest =>
      if c = '_' ∧ rest.head? = some 'R' then []
      else c :: skuBase rest

/-- `Resurrector._generate_resurrection_sku`. -/
def generateResurrectionSku (originalSku : String) (cycle : Int) : String :=
  String.mk (skuBase originalSku.data) ++ "_R" ++ toString cycle

/-- Applying the Resurrector SKU generation `k` times with cycle numbers
`1, 2, ..., k`, as successive resurrections of one listing do. -/
def resurrectSkuIter (sku : String) : Nat → String
  | 0 => sku
  | k + 1 => generateResurrectionSku (resurrectSkuIter sku k) ((k : Int) + 1)

/-- The `base` of spec property P7, following the spec words: strip a
trailing `_R<n>` suffix (underscore, capital R, a nonempty digit string)
when one is present, otherwise leave the SKU unchanged. -/
def specSkuBase (s : String) : String :=
  let r := s.data.reverse
  let ds := r.takeWhile Char.isDigit
  let t := r.dropWhile Char.isDigit
  match ds, t with
  | _ :: _, 'R' :: '_' :: rest => String.mk rest.reverse
  | _, _ => s

/-! ### Claim C1 -/

/-- Claim C1, counterexample: on the spec scenario `S=100, C=30, H=10,
a=1.5` with default fees, the minimum viable price the code computes is
`54.84` (exactly `1371/25` after rounding to cents), which exceeds the
spec value `52.74` by `2.10`; it is not approximately `52.74`. -/
theorem C1_min_viable_counterexample :
    (defaultProfitCalc.calculate ⟨100, 30, 10, 3/2⟩).minimumViablePrice = some (1371/25)
      ∧ (2 : ℚ) ≤ 1371/25 - 5274/100 := by
  constructor
  · norm_num [ProfitFloorCalc.calculate, defaultProfitCalc, round2, roundHalfEven,
      ProfitFloorCalc.findMinimumPrice]
  · norm_num

/-- Claim C1 (amended): with default configuration (base-fee rate 0.13,
payment rate 0.029, per-order fee 0.30, floor 5.00) on `S=100, C=30, H=10,
a=1.5`, the profit calculation returns `ebay_fee=13.00`, `ad_fee=1.50`,
`pay_fee=3.20`, `net=42.30`, `meets_floor=true`, and minimum viable price
`54.84`; moreover for all inputs the net profit is
`S − C − H − S·(f + a/100 + p) − F` rounded to cents, and whenever the fee
multiplier `1 − f − a/100 − p` is positive, the unrounded minimum viable
price solves `net(min_viable) = Φ` exactly. -/
theorem C1_profit_defaults :
    ((defaultProfitCalc.calculate ⟨100, 30, 10, 3/2⟩).ebayFeeAmount = 13
      ∧ (defaultProfitCalc.calculate ⟨100, 30, 10, 3/2⟩).adFeeAmount = 3/2
      ∧ (defaultProfitCalc.calculate ⟨100, 30, 10, 3/2⟩).paymentProcessingAmount = 16/5
      ∧ (defaultProfitCalc.calculate ⟨100, 30, 10, 3/2⟩).netProfit = 423/10
      ∧ (defaultProfitCalc.calculate ⟨100, 30, 10, 3/2⟩).meetsFloor = true
      ∧ (defaultProfitCalc.calculate ⟨100, 30, 10, 3/2⟩).minimumViablePrice = some (1371/25))
    ∧ (∀ (c : ProfitFloorCalc) (r : ProfitCalcRequest),
        (c.calculate r).netProfit
          = round2 (r.salePrice - r.purchasePrice - r.shippingCost
              - r.salePrice * (c.baseFeeRate + r.adRatePercent / 100 + c.paymentProcessingRate)
              - c.perOrderFee))
    ∧ (∀ (c : ProfitFloorCalc) (r : ProfitCalcRequest) (m : ℚ),
        0 < 1 - c.baseFeeRate - r.adRatePercent / 100 - c.paymentProcessingRate →
        c.findMinimumPrice r.purchasePrice r.shippingCost r.adRatePercent = some m →
        m - r.purchasePrice - r.shippingCost
          - m * (c.baseFeeRate + r.adRatePercent / 100 + c.paymentProcessingRate)
          - c.perOrderFee = c.profitFloor) := by
  refine ⟨⟨?_, ?_, ?_, ?_, ?_, ?_⟩, ?_, ?_⟩
  · norm_num [ProfitFloorCalc.calculate, defaultProfitCalc, round2, roundHalfEven]
  · norm_num [ProfitFloorCalc.calculate, defaultProfitCalc, round2, roundHalfEven]
  · norm_num [ProfitFloorCalc.calculate, defaultProfitCalc, round2, roundHalfEven]
  · norm_num [ProfitFloorCalc.calculate, defaultProfitCalc, round2, roundHalfEven]
  · norm_num [ProfitFloorCalc.calculate, defaultProfitCalc, round2, roundHalfEven]
  · norm_num [ProfitFloorCalc.calculate, defaultProfitCalc, round2, roundHalfEven,
      ProfitFloorCalc.findMinimumPrice]
  · intro c r
    simp only [ProfitFloorCalc.calculate]
    congr 1
    ring
  · intro c r m hpos hm
    simp only [ProfitFloorCalc.findMinimumPrice] at hm
    rw [if_neg (not_le.mpr hpos)] at hm
    have hm2 := (Option.some.injEq _ _).mp hm
    have hden : (1 : ℚ) - c.baseFeeRate - r.adRatePercent / 100 - c.paymentProcessingRate ≠ 0 :=
      ne_of_gt hpos
    have hmd : m * (1 - c.baseFeeRate - r.adRatePercent / 100 - c.paymentProcessingRate)
        = c.profitFloor + r.purchasePrice + r.shippingCost + c.perOrderFee := by
      rw [← hm2, div_mul_cancel₀ _ hden]
    have h3 : m - r.purchasePrice - r.shippingCost
          - m * (c.baseFeeRate + r.adRatePercent / 100 + c.paymentProcessingRate)
          - c.perOrderFee
        = m * (1 - c.baseFeeRate - r.adRatePercent / 100 - c.paymentProcessingRate)
          - (r.purchasePrice + r.shippingCost + c.perOrderFee) := by ring
    rw [h3, hmd]
    ring

/-- Claim C1, witness: the identity part of `C1_profit_defaults` applied at
the spec scenario itself, where the exact minimum viable price is
`22650/413`. -/
theorem C1_profit_defaults_witness :
    (22650/413 : ℚ) - 30 - 10 - (22650/413) * (13/100 + (3/2) / 100 + 29/1000) - 3/10 = 5 :=
  C1_profit_defaults.2.2 defaultProfitCalc ⟨100, 30, 10, 3/2⟩ (22650/413)
    (by norm_num [defaultProfitCalc])
    (by norm_num [ProfitFloorCalc.findMinimumPrice, defaultProfitCalc])

/-! ### Claim C2 -/

theorem skuBase_head? (l : List Char) :
    (skuBase l).head? = none ∨ (skuBase l).head? = l.head? := by
  cases l with
  | nil => left; rfl
  | cons c rest =>
      rw [skuBase]
      split
      · left; rfl
      · right; rfl

theorem skuBase_idem (l : List Char) : skuBase (skuBase l) = skuBase l := by
  induction l with
  | nil => rfl
  | cons c rest ih =>
      rw [skuBase]
      split
      · rfl
      · rename_i h
        rw [skuBase]
        rw [if_neg, ih]
        intro hc
        rcases hc with ⟨hc1, hc2⟩
        apply h
        refine ⟨hc1, ?_⟩
        rcases skuBase_head? rest with h2 | h2
        · rw [h2] at hc2; exact absurd hc2 (by simp)
        · rw [h2] at hc2; exact hc2

theorem skuBase_append_pat (b t : List Char) (hb : skuBase b = b) :
    skuBase (b ++ '_' :: 'R' :: t) = b := by
  induction b with
  | nil =>
      rw [List.nil_append, skuBase, if_pos]
      exact ⟨rfl, rfl⟩
  | cons c bs ih =>
      rw [skuBase] at hb
      by_cases hcond : c = '_' ∧ bs.head? = some 'R'
      · rw [if_pos hcond] at hb
        exact absurd hb.symm (List.cons_ne_nil c bs)
      · rw [if_neg hcond] at hb
        have hbs : skuBase bs = bs := (List.cons.injEq _ _ _ _).mp hb |>.2
        rw [List.cons_append, skuBase, if_neg, ih hbs]
        intro hc
        rcases hc with ⟨hc1, hc2⟩
        apply hcond
        refine ⟨hc1, ?_⟩
        cases bs with
        | nil => simp at hc2
        | cons d ds => simpa using hc2

theorem data_of_genSku (s : String) (c : Int) :
    (generateResurrectionSku s c).data = skuBase s.data ++ '_' :: 'R' :: (toString c).data := by
  simp [generateResurrectionSku, String.data_append]

/-- Claim C2, counterexample: the SKU `"A_RB"` has no trailing `_R<n>`
suffix, so by the claim one resurrection should yield `"A_RB_R1"`; the code
instead cuts at the first `_R` occurrence and yields `"A_R1"`. -/
theorem C2_sku_counterexample :
    resurrectSkuIter "A_RB" 1 = "A_R1"
      ∧ specSkuBase "A_RB" ++ "_R" ++ toString (1 : Nat) = "A_RB_R1"
      ∧ ("A_R1" : String) ≠ "A_RB_R1" := by
  refine ⟨by decide, by decide, by decide⟩

/-- Claim C2 (amended): for every SKU and every `k ≥ 1`, applying the
Resurrector SKU generation `k` times with cycle numbers `1..k` produces
`base(S₀) ++ "_R" ++ k`, where `base` keeps the characters of `S₀` before
the first occurrence of `"_R"` (all of `S₀` when `"_R"` does not occur),
i.e. Python `S₀.split("_R")[0]`. -/
theorem C2_sku_iterate (s : String) (k : Nat) (hk : 1 ≤ k) :
    resurrectSkuIter s k = String.mk (skuBase s.data) ++ "_R" ++ toString k := by
  induction k with
  | zero => omega
  | succ n ih =>
      by_cases hn : n = 0
      · subst hn
        rfl
      · have h1 : 1 ≤ n := Nat.one_le_iff_ne_zero.mpr hn
        rw [resurrectSkuIter, ih h1]
        have hcast : ((n : Int) + 1) = ((n + 1 : Nat) : Int) := by push_cast; ring
        rw [hcast]
        apply String.ext
        rw [data_of_genSku]
        have hdata : (String.mk (skuBase s.data) ++ "_R" ++ toString n).data
            = skuBase s.data ++ '_' :: 'R' :: (toString n).data := by
          simp [String.data_append]
        rw [hdata, skuBase_append_pat _ _ (skuBase_idem s.data)]
        have hts : toString ((n + 1 : Nat) : Int) = toString (n + 1) := rfl
        rw [hts]
        simp [String.data_append]

/-- Claim C2, witness: three resurrections of `"NIKE-001_R2"` give
`"NIKE-001_R3"` via `C2_sku_iterate`. -/
theorem C2_sku_iterate_witness :
    resurrectSkuIter "NIKE-001_R2" 3
      = String.mk (skuBase "NIKE-001_R2".data) ++ "_R" ++ toString (3 : Nat) :=
  C2_sku_iterate "NIKE-001_R2" 3 (by decide)

/-! ### ZombieKiller (`core/services/lifecycle/zombie_killer.py`) -/

/-- Per-listing entry of `ZombieScanResult.zombies`
(schema `ZombieReport`). -/
structure ZombieReport where
  listingId : Int
  sku : String
  title : String
  ebayItemId : Option String
  daysActive : Int
  totalViews : Int
  watchers : Int
  zombieCycleCount : Int
  shouldPurgatory : Bool
  currentPrice : ℚ
deriving DecidableEq, Repr

/-- `ZombieScanResult` (`core/schemas/analytics.py`). -/
structure ZombieScanResult where
  totalScanned : Nat
  zombiesFound : Nat
  purgatoryCandidates : Nat
  zombies : List ZombieReport
deriving DecidableEq, Repr

/-- The configured state of `ZombieKiller.__init__`: days threshold
(default 60), views threshold (default 10), max cycles (default 3). -/
structure ZombieKiller where
  daysThreshold : Int
  viewsThreshold : Int
  maxCycles : Int
deriving DecidableEq, Repr

/-- `ZombieKiller` with the `FlipFlowConfig` defaults. -/
def defaultZombieKiller : ZombieKiller :=
  { daysThreshold := 60, viewsThreshold := 10, maxCycles := 3 }

/-- The traffic report returned by `ebay.get_traffic_report`, decoded to the
`traffic_data` mapping from eBay item id to view count. -/
def TrafficData : Type := List (String × Int)

/-- Whether `scan` takes its view count for a listing from the traffic
report: the listing's `ebay_item_id` is truthy and present in
`traffic_data`. -/
def trafficHit (traffic : List (String × Int)) (l : Listing) : Option Int :=
  match l.ebayItemId with
  | some itemId =>
      if itemId.isEmpty then none
      else traffic.lookup itemId
  | none => none

/-- The `views` value the scan loop uses for a listing: the traffic-report
count when available, else the stored `total_views`. -/
def effectiveViews (traffic : List (String × Int)) (l : Listing) : Int :=
  match trafficHit traffic l with
  | some v => v
  | none => l.totalViews

/-- The zombie condition of `ZombieKiller.scan`:
`days_active >= days_threshold and views < views_threshold`. -/
def ZombieKiller.isZombie (zk : ZombieKiller) (traffic : List (String × Int))
    (l : Listing) : Bool :=
  decide (zk.daysThreshold ≤ l.daysActive) && decide (effectiveViews traffic l < zk.viewsThreshold)

/-- The `ZombieReport` the scan appends for a zombie listing. -/
def ZombieKiller.mkReport (zk : ZombieKiller) (traffic : List (String × Int))
    (l : Listing) : ZombieReport :=
  { listingId := l.id, sku := l.sku, title := l.title, ebayItemId := l.ebayItemId,
    daysActive := l.daysActive, totalViews := effectiveViews traffic l,
    watchers := l.watchers, zombieCycleCount := l.zombieCycleCount,
    shouldPurgatory := decide (zk.maxCycles ≤ l.zombieCycleCount),
    currentPrice := currentOrList l }

/-- The detection loop of `ZombieKiller.scan` over the active listings:
returns the listings with views synced back, the zombie reports, and the
purgatory-candidate count. -/
def zombieScanLoop (zk : ZombieKiller) (traffic : List (String × Int)) :
    List Listing → List Listing × List ZombieReport × Nat
  | [] => ([], [], 0)
  | l :: rest =>
      let synced :=
        match trafficHit traffic l with
        | some v => { l with totalViews := v }
        | none => l
      let out := zombieScanLoop zk traffic rest
      if zk.isZombie traffic l then
        (synced :: out.1, zk.mkReport traffic l :: out.2.1,
         (if zk.maxCycles ≤ l.zombieCycleCount then 1 else 0) + out.2.2)
      else
        (synced :: out.1, out.2.1, out.2.2)

/-- `ZombieKiller.scan`: filter to `active` listings, run the detection
loop, and assemble the scan result (second component: the scanned listings
after the `total_views` sync). -/
def ZombieKiller.scan (zk : ZombieKiller) (listings : List Listing)
    (traffic : List (String × Int)) : ZombieScanResult × List Listing :=
  let active := listings.filter (fun l => l.status == ListingStatus.active)
  let out := zombieScanLoop zk traffic active
  ({ totalScanned := active.length, zombiesFound := out.2.1.length,
     purgatoryCandidates := out.2.2, zombies := out.2.1 }, out.1)

/-- `ZombieKiller.flag_zombie`: sets the status to `zombie`, overridden to
`purgatory` when the cycle count has reached `max_cycles`, and appends a
`ZombieRecord`; the current status is never inspected. -/
def ZombieKiller.flagZombie (zk : ZombieKiller) (now : Int) (listing : Listing) :
    Listing × ZombieRecord :=
  let hitMax := zk.maxCycles ≤ listing.zombieCycleCount
  let st := if hitMax then ListingStatus.purgatory else ListingStatus.zombie
  let action := if hitMax then ZombieAction.purgatored else ZombieAction.flagged
  ({ listing with status := st },
   { listingId := listing.id, detectedAt := now,
     daysActiveAtDetection := listing.daysActive,
     viewsAtDetection := listing.totalViews,
     actionTaken := action,
     cycleNumber := listing.zombieCycleCount + 1 })

/-! ### SmartQueue.enqueue (`core/services/lifecycle/smart_queue.py`) -/

/-- Queue entry status enumeration (`core/constants.py`, `QueueStatus`). -/
inductive QueueStatus where
  | pending
  | released
  | failed
  | cancelled
deriving DecidableEq, Repr

/-- The `queue_entries` row (`core/models/queue_entry.py`), restricted to
the fields `enqueue` writes. -/
structure QueueEntry where
  listingId : Int
  priority : Int
  scheduledWindow : String
  status : QueueStatus
deriving DecidableEq, Repr

/-- `SmartQueue.enqueue`: creates a `pending` queue entry and sets the
listing status to `queued`; the current status is never inspected. -/
def SmartQueue.enqueue (listing : Listing) (priority : Int) (window : String) :
    Listing × QueueEntry :=
  ({ listing with status := ListingStatus.queued },
   { listingId := listing.id, priority := priority,
     scheduledWindow := window, status := QueueStatus.pending })

/-! ### Purgatory (`core/services/growth/purgatory.py`) -/

/-- The configured state of `Purgatory.__init__` (fee rates shared with the
profit calculator, plus the sale percent, default 30). -/
structure PurgatoryConfig where
  ebayBaseFeeRate : ℚ
  paymentProcessingRate : ℚ
  perOrderFee : ℚ
  salePercent : ℚ
deriving DecidableEq, Repr

/-- `Purgatory.calculate_break_even_price`; `none` encodes `float("inf")`
for a non-positive denominator. -/
def Purgatory.calculateBreakEvenPrice (cfg : PurgatoryConfig) (l : Listing) : Option ℚ :=
  let totalFeeRate := cfg.ebayBaseFeeRate + cfg.paymentProcessingRate
  let denominator := 1 - totalFeeRate
  if denominator ≤ 0 then none
  else some ((l.purchasePrice + l.shippingCost + cfg.perOrderFee) / denominator)

/-- `Purgatory.calculate_markdown_price`: break-even reduced by the sale
percent, rounded to cents. -/
def Purgatory.calculateMarkdownPrice (cfg : PurgatoryConfig) (l : Listing) : Option ℚ :=
  (Purgatory.calculateBreakEvenPrice cfg l).map
    (fun breakEven => round2 (breakEven * (1 - cfg.salePercent / 100)))

/-- `Purgatory.enter_purgatory`: sets status to `purgatory` and the current
price to the markdown price before the gateway push; a gateway failure
returns a failure flag but the mutation stands.  The current status is
never inspected. -/
def Purgatory.enterPurgatory (cfg : PurgatoryConfig) (gatewayOk : Bool)
    (listing : Listing) : Listing × Bool :=
  let markdown := Purgatory.calculateMarkdownPrice cfg listing
  let mutated := { listing with
    status := ListingStatus.purgatory
    currentPrice := markdown }
  if !listing.sku.isEmpty && !gatewayOk then (mutated, false)
  else (mutated, true)

/-! ### Claim C4 -/

theorem zombieScanLoop_zombies (zk : ZombieKiller) (traffic : List (String × Int))
    (ls : List Listing) :
    (zombieScanLoop zk traffic ls).2.1
      = ls.filterMap (fun l =>
          if zk.isZombie traffic l then some (zk.mkReport traffic l) else none) := by
  induction ls with
  | nil => rfl
  | cons l rest ih =>
      rw [zombieScanLoop, List.filterMap_cons]
      by_cases h : zk.isZombie traffic l
      · simp only [h, if_true, ih]
      · simp only [h, if_false, ih]
        simp [h]

/-- Claim C4: a listing scanned by the ZombieKiller appears among the
reported zombies exactly when it is `active`, `days_active` is at least the
days threshold, and its effective view count is strictly below the views
threshold; its report flags it as a purgatory candidate exactly when its
`zombie_cycle_count` has reached `max_cycles`; and with the default
thresholds an active listing at `days_active = 60`, `views = 10` is not
reported. -/
theorem C4_zombie_classification :
    (∀ (zk : ZombieKiller) (traffic : List (String × Int)) (listings : List Listing)
        (l : Listing), l ∈ listings → (listings.map Listing.id).Nodup →
        ((∃ r ∈ (zk.scan listings traffic).1.zombies, r.listingId = l.id) ↔
          (l.status = ListingStatus.active ∧ zk.daysThreshold ≤ l.daysActive
            ∧ effectiveViews traffic l < zk.viewsThreshold)))
    ∧ (∀ (zk : ZombieKiller) (traffic : List (String × Int)) (listings : List Listing)
        (l : Listing) (r : ZombieReport), l ∈ listings → (listings.map Listing.id).Nodup →
        r ∈ (zk.scan listings traffic).1.zombies → r.listingId = l.id →
        r.shouldPurgatory = decide (zk.maxCycles ≤ l.zombieCycleCount))
    ∧ ((defaultZombieKiller.scan
          [{ id := 1, sku := "B-1", title := "b", status := ListingStatus.active,
             daysActive := 60, totalViews := 10 }] []).1.zombies = []) := by
  have hmem : ∀ (zk : ZombieKiller) (traffic : List (String × Int)) (listings : List Listing)
      (r : ZombieReport), r ∈ (zk.scan listings traffic).1.zombies ↔
        ∃ x ∈ listings, x.status = ListingStatus.active ∧ zk.isZombie traffic x = true
          ∧ zk.mkReport traffic x = r := by
    intro zk traffic listings r
    simp only [ZombieKiller.scan, zombieScanLoop_zombies, List.mem_filterMap,
      List.mem_filter, beq_iff_eq]
    constructor
    · rintro ⟨x, ⟨hx, hact⟩, hfx⟩
      by_cases hz : zk.isZombie traffic x
      · rw [if_pos hz] at hfx
        exact ⟨x, hx, hact, hz, (Option.some.injEq _ _).mp hfx⟩
      · rw [if_neg hz] at hfx
        exact absurd hfx (by simp)
    · rintro ⟨x, hx, hact, hz, hfx⟩
      exact ⟨x, ⟨hx, hact⟩, by rw [if_pos hz, hfx]⟩
  refine ⟨?_, ?_, ?_⟩
  · intro zk traffic listings l hl hnd
    constructor
    · rintro ⟨r, hr, hid⟩
      rcases (hmem zk traffic listings r).mp hr with ⟨x, hx, hact, hz, hfx⟩
      have hxid : x.id = l.id := by
        rw [← hfx] at hid
        exact hid
      have hxl : x = l := List.inj_on_of_nodup_map hnd hx hl hxid
      subst hxl
      rw [ZombieKiller.isZombie, Bool.and_eq_true, decide_eq_true_eq, decide_eq_true_eq] at hz
      exact ⟨hact, hz.1, hz.2⟩
    · rintro ⟨hact, hd, hv⟩
      refine ⟨zk.mkReport traffic l, ?_, rfl⟩
      refine (hmem zk traffic listings _).mpr ⟨l, hl, hact, ?_, rfl⟩
      rw [ZombieKiller.isZombie, Bool.and_eq_true, decide_eq_true_eq, decide_eq_true_eq]
      exact ⟨hd, hv⟩
  · intro zk traffic listings l r hl hnd hr hid
    rcases (hmem zk traffic listings r).mp hr with ⟨x, hx, _, _, hfx⟩
    have hxid : x.id = l.id := by
      rw [← hfx] at hid
      exact hid
    have hxl : x = l := List.inj_on_of_nodup_map hnd hx hl hxid
    subst hxl
    rw [← hfx]
    rfl
  · rfl

/-- A concrete zombie listing: active for 61 days with 9 views. -/
def zombieWitnessListing : Listing :=
  { id := 7, sku := "Z-7", title := "z", status := ListingStatus.active,
    daysActive := 61, totalViews := 9 }

/-- Claim C4, witness: `C4_zombie_classification` applied at a listing with
`days_active = 61`, `views = 9`, which is reported as a zombie. -/
theorem C4_zombie_classification_witness :
    ∃ r ∈ (defaultZombieKiller.scan [zombieWitnessListing] []).1.zombies,
      r.listingId = zombieWitnessListing.id :=
  (C4_zombie_classification.1 defaultZombieKiller [] [zombieWitnessListing]
      zombieWitnessListing (List.mem_singleton.mpr rfl) (by decide)).mpr
    ⟨rfl, by decide, by decide⟩

/-! ### Claim C7 -/

/-- A concrete `active` listing used to exercise the transition guards. -/
def activeDemoListing : Listing :=
  { id := 3, sku := "A-3", title := "a", status := ListingStatus.active }

/-- Claim C7, counterexample: enqueueing an already-`active` listing is a
request outside the status DAG, yet `SmartQueue.enqueue` does not reject
it: the listing's status changes from `active` to `queued`. -/
theorem C7_transition_counterexample :
    activeDemoListing.status = ListingStatus.active
      ∧ (SmartQueue.enqueue activeDemoListing 0 "sunday_surge").1.status
          = ListingStatus.queued
      ∧ (SmartQueue.enqueue activeDemoListing 0 "sunday_surge").1.status
          ≠ activeDemoListing.status := by
  refine ⟨rfl, rfl, by decide⟩

/-- Claim C7 (amended): the status-changing operations perform no
transition validation at all.  `enqueue` sets any listing to `queued`
(creating a `pending` entry), `flag_zombie` sets any listing to `zombie`
(or to `purgatory` once the cycle count reaches `max_cycles`), and
`enter_purgatory` sets any listing to `purgatory` (even when the gateway
push fails), regardless of the listing's current status; requests outside
the DAG are executed, not rejected. -/
theorem C7_transitions_unguarded :
    (∀ (listing : Listing) (priority : Int) (window : String),
        (SmartQueue.enqueue listing priority window).1.status = ListingStatus.queued
          ∧ (SmartQueue.enqueue listing priority window).2.status = QueueStatus.pending)
    ∧ (∀ (zk : ZombieKiller) (now : Int) (listing : Listing),
        (zk.flagZombie now listing).1.status
          = (if zk.maxCycles ≤ listing.zombieCycleCount then ListingStatus.purgatory
             else ListingStatus.zombie))
    ∧ (∀ (cfg : PurgatoryConfig) (gatewayOk : Bool) (listing : Listing),
        (Purgatory.enterPurgatory cfg gatewayOk listing).1.status
          = ListingStatus.purgatory) := by
  refine ⟨fun listing priority window => ⟨rfl, rfl⟩, fun zk now listing => ?_, ?_⟩
  · rw [ZombieKiller.flagZombie]
  · intro cfg gatewayOk listing
    rw [Purgatory.enterPurgatory]
    split <;> rfl

/-! ### Resurrector (`core/services/lifecycle/resurrector.py`) -/

/-- An external marketplace call completed by the resurrection pipeline. -/
inductive GatewayCall where
  | withdrawOffer (offerId : String)
  | createInventoryItem (sku : String)
  | createOffer (sku : String)
  | publishOffer (offerId : String)
deriving DecidableEq, Repr

/-- Outcomes of the four gateway operations `resurrect` issues.  `none`
encodes a raised exception; for `publishResult` the success payload is the
optional `listingId` of the decoded response. -/
structure ResurrectGateway where
  withdrawOk : Bool
  createItemOk : Bool
  createOfferResult : Option String
  publishResult : Option (Option String)
deriving DecidableEq, Repr

/-- `ResurrectionResult` (`core/schemas/analytics.py`). -/
structure ResurrectionResult where
  listingId : Int
  sku : String
  oldItemId : Option String
  newItemId : Option String
  newOfferId : Option String
  cycleNumber : Int
  success : Bool
  error : Option String := none
  resurrectedAt : Option Int := none
deriving DecidableEq, Repr

/-- `Resurrector._rotate_photos`. -/
def rotatePhotos (photoUrls : List String) : List String :=
  match photoUrls with
  | a :: b :: rest => b :: a :: rest
  | _ => photoUrls

/-- `Resurrector._fail`. -/
def resurrectFail (listing : Listing) (cycle : Int) (err : String) : ResurrectionResult :=
  { listingId := listing.id, sku := listing.sku, oldItemId := listing.ebayItemId,
    newItemId := none, newOfferId := none, cycleNumber := cycle,
    success := false, error := some err }

/-- The withdraw call `resurrect` issues when the listing has a truthy
offer id. -/
def resurrectWithdrawCalls (listing : Listing) : List GatewayCall :=
  if truthyStr listing.offerId then
    [GatewayCall.withdrawOffer (listing.offerId.getD "")]
  else []

/-- `Resurrector.resurrect` on a fetched listing.  The returned tuple is
the structured result, the listing row after the call, the appended zombie
records, and the trace of external gateway calls that completed (the
cooldown sleep has no observable effect here). -/
def resurrect (gw : ResurrectGateway) (now : Int) (listing : Listing) :
    ResurrectionResult × Listing × List ZombieRecord × List GatewayCall :=
  let cycle := listing.zombieCycleCount + 1
  let newSku := generateResurrectionSku listing.sku cycle
  if truthyStr listing.offerId = true ∧ gw.withdrawOk = false then
    (resurrectFail listing cycle "Failed to withdraw offer", listing, [], [])
  else if gw.createItemOk = false then
    (resurrectFail listing cycle "Failed to create inventory item", listing, [],
     resurrectWithdrawCalls listing)
  else
    match gw.createOfferResult with
    | none =>
        (resurrectFail listing cycle "Failed to publish offer", listing, [],
         resurrectWithdrawCalls listing ++ [GatewayCall.createInventoryItem newSku])
    | some offerId =>
      match gw.publishResult with
      | none =>
          (resurrectFail listing cycle "Failed to publish offer", listing, [],
           resurrectWithdrawCalls listing
             ++ [GatewayCall.createInventoryItem newSku, GatewayCall.createOffer newSku])
      | some newItemId =>
        let updated := { listing with
          sku := newSku, ebayItemId := newItemId, offerId := some offerId,
          status := ListingStatus.active, zombieCycleCount := cycle,
          daysActive := 0, totalViews := 0, watchers := 0,
          photoUrls := rotatePhotos listing.photoUrls, mainPhotoIndex := 0,
          listedAt := some now }
        -- the record is built after the listing update, exactly as the
        -- source does: its at-detection fields read the reset counters
        let record : ZombieRecord := {
          listingId := updated.id, detectedAt := now,
          daysActiveAtDetection := updated.daysActive,
          viewsAtDetection := updated.totalViews,
          actionTaken := ZombieAction.resurrected, resurrectedAt := some now,
          oldItemId := listing.ebayItemId, newItemId := newItemId,
          cycleNumber := cycle }
        ({ listingId := updated.id, sku := newSku, oldItemId := listing.ebayItemId,
           newItemId := newItemId, newOfferId := some offerId, cycleNumber := cycle,
           success := true, resurrectedAt := some now },
         updated, [record],
         resurrectWithdrawCalls listing
           ++ [GatewayCall.createInventoryItem newSku, GatewayCall.createOffer newSku,
               GatewayCall.publishOffer offerId])

/-- Every record `resurrect` appends carries the `resurrected` action. -/
theorem resurrect_records_action (gw : ResurrectGateway) (now : Int) (listing : Listing) :
    ∀ r ∈ (resurrect gw now listing).2.2.1, r.actionTaken = ZombieAction.resurrected := by
  intro r hr
  rw [resurrect] at hr
  split at hr
  · simp at hr
  · split at hr
    · simp at hr
    · split at hr
      · simp at hr
      · split at hr
        · simp at hr
        · rw [List.mem_singleton] at hr
          rw [hr]

/-- Every run of `resurrect` either succeeds or leaves the listing row
untouched with no record appended. -/
theorem resurrect_frame_or_success (gw : ResurrectGateway) (now : Int) (listing : Listing) :
    (resurrect gw now listing).1.success = true
      ∨ ((resurrect gw now listing).2.1 = listing
          ∧ (resurrect gw now listing).2.2.1 = []) := by
  rw [resurrect]
  split
  · exact Or.inr ⟨rfl, rfl⟩
  · split
    · exact Or.inr ⟨rfl, rfl⟩
    · split
      · exact Or.inr ⟨rfl, rfl⟩
      · split
        · exact Or.inr ⟨rfl, rfl⟩
        · exact Or.inl rfl

/-- On any failing run, `resurrect` leaves the listing row untouched and
appends no record. -/
theorem resurrect_fail_frame (gw : ResurrectGateway) (now : Int) (listing : Listing)
    (h : (resurrect gw now listing).1.success = false) :
    (resurrect gw now listing).2.1 = listing
      ∧ (resurrect gw now listing).2.2.1 = [] := by
  rcases resurrect_frame_or_success gw now listing with hs | hf
  · rw [h] at hs
    exact absurd hs (by decide)
  · exact hf

/-! ### Claim C6 -/

/-- A zombie listing used as concrete input to the resurrection pipeline
(the fixture of `tests/unit/test_resurrector.py`). -/
def resurrectDemoListing : Listing :=
  { id := 11, sku := "Z-001", title := "Zombie Test Item",
    ebayItemId := some "ITEM-001", offerId := some "OFFER-001",
    status := ListingStatus.zombie, daysActive := 70, totalViews := 3,
    photoUrls := ["a", "b", "c"], purchasePrice := 10, listPrice := 30 }

/-- Gateway outcomes where withdraw and create-item succeed but
create-offer raises. -/
def createOfferFailsGw : ResurrectGateway :=
  { withdrawOk := true, createItemOk := true,
    createOfferResult := none, publishResult := none }

/-- Claim C6, counterexample: when the create-offer call fails, the run
aborts, but the committed external effects are the withdraw AND the
created inventory item — not the withdraw alone as the claim states. -/
theorem C6_commit_counterexample :
    (resurrect createOfferFailsGw 0 resurrectDemoListing).1.success = false
      ∧ (resurrect createOfferFailsGw 0 resurrectDemoListing).2.2.2
          = [GatewayCall.withdrawOffer "OFFER-001",
             GatewayCall.createInventoryItem "Z-001_R1"]
      ∧ GatewayCall.createInventoryItem "Z-001_R1"
          ≠ GatewayCall.withdrawOffer "OFFER-001" := by
  refine ⟨by decide, by decide, by decide⟩

/-- Claim C6 (amended): if any gateway call of the pipeline fails
(withdraw, create inventory item, create offer, or publish),
`resurrect` returns a structured failure with `success = false` and an
error message, no field of the listing row is mutated, no zombie record is
appended, and the external calls already committed — the withdraw plus any
create-inventory-item and create-offer calls that succeeded before the
failing step — stay committed, with no compensating call issued (the call
trace is a sub-sequence of withdraw, create-item, create-offer). -/
theorem withdrawCalls_sublist (listing : Listing) (tail : List GatewayCall) :
    List.Sublist (resurrectWithdrawCalls listing)
      (GatewayCall.withdrawOffer (listing.offerId.getD "") :: tail) := by
  rw [resurrectWithdrawCalls]
  split
  · exact List.Sublist.cons₂ _ (List.nil_sublist tail)
  · exact List.nil_sublist _

theorem withdrawCalls_append_sublist (listing : Listing) (mid tail : List GatewayCall) :
    List.Sublist (resurrectWithdrawCalls listing ++ mid)
      (GatewayCall.withdrawOffer (listing.offerId.getD "") :: (mid ++ tail)) := by
  rw [resurrectWithdrawCalls]
  split
  · exact List.Sublist.cons₂ _ (List.sublist_append_left mid tail)
  · exact List.Sublist.cons _ (by simp [List.sublist_append_left])

theorem C6_gateway_failure_aborts (gw : ResurrectGateway) (now : Int) (listing : Listing)
    (hfail : (truthyStr listing.offerId = true ∧ gw.withdrawOk = false)
      ∨ gw.createItemOk = false ∨ gw.createOfferResult = none
      ∨ gw.publishResult = none) :
    (resurrect gw now listing).1.success = false
      ∧ (resurrect gw now listing).1.error.isSome = true
      ∧ (resurrect gw now listing).2.1 = listing
      ∧ (resurrect gw now listing).2.2.1 = []
      ∧ List.Sublist (resurrect gw now listing).2.2.2
          [GatewayCall.withdrawOffer (listing.offerId.getD ""),
           GatewayCall.createInventoryItem
             (generateResurrectionSku listing.sku (listing.zombieCycleCount + 1)),
           GatewayCall.createOffer
             (generateResurrectionSku listing.sku (listing.zombieCycleCount + 1))] := by
  rw [resurrect]
  split
  · exact ⟨rfl, rfl, rfl, rfl, List.nil_sublist _⟩
  · split
    · refine ⟨rfl, rfl, rfl, rfl, ?_⟩
      exact withdrawCalls_sublist listing _
    · split
      · refine ⟨rfl, rfl, rfl, rfl, ?_⟩
        exact withdrawCalls_append_sublist listing
          [GatewayCall.createInventoryItem
            (generateResurrectionSku listing.sku (listing.zombieCycleCount + 1))]
          [GatewayCall.createOffer
            (generateResurrectionSku listing.sku (listing.zombieCycleCount + 1))]
      · split
        · refine ⟨rfl, rfl, rfl, rfl, ?_⟩
          have := withdrawCalls_append_sublist listing
            [GatewayCall.createInventoryItem
              (generateResurrectionSku listing.sku (listing.zombieCycleCount + 1)),
             GatewayCall.createOffer
              (generateResurrectionSku listing.sku (listing.zombieCycleCount + 1))] []
          simpa using this
        · exfalso
          simp_all

/-- Claim C6, witness: `C6_gateway_failure_aborts` at the concrete listing
and the gateway whose create-offer call fails. -/
theorem C6_gateway_failure_aborts_witness :
    (resurrect createOfferFailsGw 0 resurrectDemoListing).1.success = false
      ∧ (resurrect createOfferFailsGw 0 resurrectDemoListing).1.error.isSome = true
      ∧ (resurrect createOfferFailsGw 0 resurrectDemoListing).2.1 = resurrectDemoListing
      ∧ (resurrect createOfferFailsGw 0 resurrectDemoListing).2.2.1 = []
      ∧ List.Sublist (resurrect createOfferFailsGw 0 resurrectDemoListing).2.2.2
          [GatewayCall.withdrawOffer (resurrectDemoListing.offerId.getD ""),
           GatewayCall.createInventoryItem
             (generateResurrectionSku resurrectDemoListing.sku
               (resurrectDemoListing.zombieCycleCount + 1)),
           GatewayCall.createOffer
             (generateResurrectionSku resurrectDemoListing.sku
               (resurrectDemoListing.zombieCycleCount + 1))] :=
  C6_gateway_failure_aborts createOfferFailsGw 0 resurrectDemoListing
    (Or.inr (Or.inr (Or.inl rfl)))

/-! ### Claim C8 -/

/-- Gateway outcomes where every call of the pipeline succeeds. -/
def allOkGw : ResurrectGateway :=
  { withdrawOk := true, createItemOk := true,
    createOfferResult := some "NEW-OFFER", publishResult := some (some "NEW-ITEM") }

/-- Claim C8: on a successful resurrection of a listing that had
`days_active = 70` and `total_views = 3` at detection, the appended
`ZombieRecord` stores `0` in both at-detection fields, because the source
builds the record after resetting the listing counters.  This exhibits the
divergence from the claim (and from the record's own field names). -/
theorem C8_detection_fields_zeroed :
    resurrectDemoListing.daysActive = 70
      ∧ resurrectDemoListing.totalViews = 3
      ∧ (resurrect allOkGw 5 resurrectDemoListing).1.success = true
      ∧ (resurrect allOkGw 5 resurrectDemoListing).2.2.1
          = [{ listingId := 11, detectedAt := 5,
               daysActiveAtDetection := 0, viewsAtDetection := 0,
               actionTaken := ZombieAction.resurrected, resurrectedAt := some 5,
               oldItemId := some "ITEM-001", newItemId := some "NEW-ITEM",
               cycleNumber := 1 }] := by
  refine ⟨rfl, rfl, by decide, by decide⟩

/-! ### AutoRelister (`core/services/lifecycle/auto_relister.py`) -/

/-- The configured state of `AutoRelister.__init__`: relist cadence and
views threshold. -/
structure AutoRelister where
  cadenceDays : Int
  viewsThreshold : Int
deriving DecidableEq, Repr

/-- `AutoRelister._is_due_for_relist`. -/
def AutoRelister.isDueForRelist (ar : AutoRelister) (l : Listing) : Bool :=
  l.status == ListingStatus.active
    && decide (ar.cadenceDays ≤ l.daysActive)
    && decide (l.totalViews < ar.viewsThreshold)
    && l.offerId.isSome

/-- The per-listing loop of `AutoRelister.auto_relist`; `gwf` gives each
listing's gateway outcomes by listing id.  Returns the listing rows after
the pass, the appended zombie records, and the (relisted, skipped, errors)
counters. -/
def autoRelistLoop (ar : AutoRelister) (gwf : Int → ResurrectGateway) (now : Int) :
    List Listing → List Listing × List ZombieRecord × Nat × Nat × Nat
  | [] => ([], [], 0, 0, 0)
  | l :: rest =>
      let out := autoRelistLoop ar gwf now rest
      if ar.isDueForRelist l = false then
        (l :: out.1, out.2.1, out.2.2.1, out.2.2.2.1 + 1, out.2.2.2.2)
      else
        let res := resurrect (gwf l.id) now l
        if res.1.success = false then
          (res.2.1 :: out.1, res.2.2.1 ++ out.2.1,
           out.2.2.1, out.2.2.2.1, out.2.2.2.2 + 1)
        else
          -- restore zombie_cycle_count: a preventive relist is not a cycle
          let restored := { res.2.1 with zombieCycleCount := l.zombieCycleCount }
          let record : ZombieRecord := {
            listingId := restored.id, detectedAt := now,
            daysActiveAtDetection := restored.daysActive,
            viewsAtDetection := restored.totalViews,
            actionTaken := ZombieAction.preventiveRelist, resurrectedAt := some now,
            oldItemId := l.ebayItemId, newItemId := res.1.newItemId,
            cycleNumber := 0 }
          (restored :: out.1, res.2.2.1 ++ [record] ++ out.2.1,
           out.2.2.1 + 1, out.2.2.2.1, out.2.2.2.2)

/-- `AutoRelister.auto_relist`: the loop over the `active` listings. -/
def AutoRelister.autoRelist (ar : AutoRelister) (gwf : Int → ResurrectGateway)
    (now : Int) (listings : List Listing) :
    List Listing × List ZombieRecord × Nat × Nat × Nat :=
  autoRelistLoop ar gwf now
    (listings.filter (fun l => l.status == ListingStatus.active))

/-! ### Claim C10 -/

theorem autoRelistLoop_spec (ar : AutoRelister) (gwf : Int → ResurrectGateway)
    (now : Int) (ls : List Listing) :
    ((autoRelistLoop ar gwf now ls).1.map Listing.zombieCycleCount
        = ls.map Listing.zombieCycleCount)
      ∧ (∀ r ∈ (autoRelistLoop ar gwf now ls).2.1,
          r.actionTaken = ZombieAction.preventiveRelist → r.cycleNumber = 0)
      ∧ (((autoRelistLoop ar gwf now ls).2.1.filter
            (fun r => r.actionTaken == ZombieAction.preventiveRelist)).length
          = (autoRelistLoop ar gwf now ls).2.2.1) := by
  induction ls with
  | nil => exact ⟨rfl, by intro r hr; rw [autoRelistLoop] at hr; simp at hr, rfl⟩
  | cons l rest ih =>
      rw [autoRelistLoop]
      by_cases hdue : ar.isDueForRelist l = false
      · rw [if_pos hdue]
        exact ⟨by simpa using ih.1, ih.2.1, ih.2.2⟩
      · rw [if_neg hdue]
        by_cases hfail : (resurrect (gwf l.id) now l).1.success = false
        · rw [if_pos hfail]
          have hframe := resurrect_fail_frame (gwf l.id) now l hfail
          refine ⟨?_, ?_, ?_⟩
          · simp only [List.map_cons, hframe.1, ih.1]
          · intro r hr
            simp only [List.mem_append, hframe.2] at hr
            rcases hr with hr | hr
            · simp at hr
            · exact ih.2.1 r hr
          · simp only [hframe.2, List.nil_append]
            exact ih.2.2
        · rw [if_neg hfail]
          refine ⟨?_, ?_, ?_⟩
          · simp only [List.map_cons, ih.1]
          · intro r hr
            simp only [List.mem_append, List.mem_singleton] at hr
            rcases hr with (hr | hr) | hr
            · intro hact
              exact absurd (resurrect_records_action (gwf l.id) now l r hr) (by rw [hact]; decide)
            · rw [hr]
              intro _
              rfl
            · exact ih.2.1 r hr
          · have hresFilter : ((resurrect (gwf l.id) now l).2.2.1.filter
                (fun r => r.actionTaken == ZombieAction.preventiveRelist)) = [] := by
              rw [List.filter_eq_nil_iff]
              intro r hr
              have := resurrect_records_action (gwf l.id) now l r hr
              rw [this]
              decide
            simp only [List.filter_append, hresFilter, List.nil_append,
              List.length_append, ih.2.2]
            simp [List.filter]
            omega

/-- Claim C10: for every listing processed by the AutoRelister preventive
relist (whether skipped, failed, or successfully passed through the shared
Resurrector pipeline), `zombie_cycle_count` afterwards equals its value
before; every record the pass appends with action `preventive_relist` has
`cycle_number = 0`; and the relisted counter counts exactly the
`preventive_relist` records appended. -/
theorem C10_preventive_relist_preserves_cycle (ar : AutoRelister)
    (gwf : Int → ResurrectGateway) (now : Int) (listings : List Listing) :
    ((ar.autoRelist gwf now listings).1.map Listing.zombieCycleCount
        = (listings.filter (fun l => l.status == ListingStatus.active)).map
            Listing.zombieCycleCount)
      ∧ (∀ r ∈ (ar.autoRelist gwf now listings).2.1,
          r.actionTaken = ZombieAction.preventiveRelist → r.cycleNumber = 0)
      ∧ (((ar.autoRelist gwf now listings).2.1.filter
            (fun r => r.actionTaken == ZombieAction.preventiveRelist)).length
          = (ar.autoRelist gwf now listings).2.2.1) :=
  autoRelistLoop_spec ar gwf now _

/-- The relister configured to relist 60-day-old listings below 10 views. -/
def demoRelister : AutoRelister := { cadenceDays := 60, viewsThreshold := 10 }

/-- An active low-traffic listing with an offer id, due for relist. -/
def relistDemoListing : Listing :=
  { id := 21, sku := "R-21", title := "r", ebayItemId := some "ITEM-21",
    offerId := some "OFFER-21", status := ListingStatus.active,
    daysActive := 70, totalViews := 3, zombieCycleCount := 2 }

/-- Claim C10, witness: `C10_preventive_relist_preserves_cycle` applied to
a successful concrete pass, instantiated at its preventive record. -/
theorem C10_preventive_relist_witness :
    ({ listingId := 21, detectedAt := 9, daysActiveAtDetection := 0,
       viewsAtDetection := 0, actionTaken := ZombieAction.preventiveRelist,
       resurrectedAt := some 9, oldItemId := some "ITEM-21",
       newItemId := some "NEW-ITEM", cycleNumber := 0 } : ZombieRecord).cycleNumber = 0 :=
  (C10_preventive_relist_preserves_cycle demoRelister (fun _ => allOkGw) 9
      [relistDemoListing]).2.1 _ (by decide) rfl


/-! ### OfferSniper (`core/services/growth/offer_sniper.py`) -/

/-- The configured state of `OfferSniper.__init__`: the parsed discount
tiers plus the inbound-offer thresholds. -/
structure OfferSniper where
  tiers : List (Int × ℚ)
  autoAcceptThreshold : ℚ
  counterThreshold : ℚ
  counterPercent : ℚ
deriving DecidableEq, Repr

/-- `OfferSniper.get_discount_percent`: the last tier whose day bound is at
most the listing age; the first tier (or 10.0 when no tiers) otherwise. -/
def OfferSniper.getDiscountPercent (sn : OfferSniper) (daysActive : Int) : ℚ :=
  let init := match sn.tiers with
    | [] => 10
    | t :: _ => t.2
  sn.tiers.foldl (fun acc t => if t.1 ≤ daysActive then t.2 else acc) init

/-- `OfferSniper.calculate_offer_price`. -/
def OfferSniper.calculateOfferPrice (sn : OfferSniper) (currentPrice : ℚ)
    (daysActive : Int) : ℚ :=
  round2 (currentPrice * (1 - sn.getDiscountPercent daysActive / 100))

/-- `OfferSniper._was_offer_sent_recently`: an offer record for the same
(listing, buyer) pair with `sent_at` within the past 24 hours
(86400 seconds). -/
def wasOfferSentRecently (records : List OfferRecordRow) (now : Int)
    (listingId : Int) (buyerId : String) : Bool :=
  records.any (fun r =>
    r.listingId == listingId && r.buyerId == buyerId
      && decide (now - 86400 ≤ r.sentAt))

/-- The gateway environment of one outbound scan: watcher lists keyed by
eBay item id (a `none` or empty buyer id is skipped), whether
`get_watchers` succeeds, and whether `send_offer_to_buyer` succeeds. -/
structure SnipeEnv where
  watchersOf : String → List (Option String)
  getWatchersOk : String → Bool
  sendOk : String → String → Bool

/-- The inner watcher loop of `OfferSniper.scan_and_snipe` for one listing:
threads the offer-record table and returns it together with the sent
(listing id, buyer id) pairs and the per-watcher error count. -/
def snipeWatchLoop (now : Int) (lid : Int) (itemId : String) (offerPrice pct : ℚ)
    (sendOk : String → String → Bool) :
    List OfferRecordRow → List (Option String) →
      List OfferRecordRow × List (Int × String) × Nat
  | recs, [] => (recs, [], 0)
  | recs, w :: ws =>
      match w with
      | none => snipeWatchLoop now lid itemId offerPrice pct sendOk recs ws
      | some b =>
        if b.isEmpty then snipeWatchLoop now lid itemId offerPrice pct sendOk recs ws
        else if wasOfferSentRecently recs now lid b then
          snipeWatchLoop now lid itemId offerPrice pct sendOk recs ws
        else if sendOk itemId b then
          let row : OfferRecordRow :=
            { listingId := lid, buyerId := b, offerPrice := offerPrice,
              discountPercent := pct, sentAt := now, status := OfferStatus.sent }
          let out := snipeWatchLoop now lid itemId offerPrice pct sendOk (recs ++ [row]) ws
          (out.1, (lid, b) :: out.2.1, out.2.2)
        else
          let out := snipeWatchLoop now lid itemId offerPrice pct sendOk recs ws
          (out.1, out.2.1, out.2.2 + 1)

/-- The outer listing loop of `scan_and_snipe`. -/
def snipeScanLoop (sn : OfferSniper) (env : SnipeEnv) (now : Int) :
    List OfferRecordRow → List Listing →
      List OfferRecordRow × List (Int × String) × Nat
  | recs, [] => (recs, [], 0)
  | recs, l :: ls =>
      let itemId := l.ebayItemId.getD ""
      if env.getWatchersOk itemId = false then
        let out := snipeScanLoop sn env now recs ls
        (out.1, out.2.1, out.2.2 + 1)
      else if env.watchersOf itemId = [] then
        snipeScanLoop sn env now recs ls
      else
        let inner := snipeWatchLoop now l.id itemId
          (sn.calculateOfferPrice (currentOrList l) l.daysActive)
          (sn.getDiscountPercent l.daysActive) env.sendOk recs (env.watchersOf itemId)
        let out := snipeScanLoop sn env now inner.1 ls
        (out.1, inner.2.1 ++ out.2.1, inner.2.2 + out.2.2)

/-- `OfferSniper.scan_and_snipe`: the loop over the `active` listings that
carry an eBay item id. -/
def OfferSniper.scanAndSnipe (sn : OfferSniper) (env : SnipeEnv) (now : Int)
    (records : List OfferRecordRow) (listings : List Listing) :
    List OfferRecordRow × List (Int × String) × Nat :=
  snipeScanLoop sn env now records
    (listings.filter (fun l =>
      l.status == ListingStatus.active && l.ebayItemId.isSome))

/-- One scheduled outbound scan: its wall-clock time, gateway environment,
and the active listings read from the store. -/
structure ScanRun where
  time : Int
  env : SnipeEnv
  listings : List Listing

instance : Inhabited ScanRun :=
  ⟨⟨0, ⟨fun _ => [], fun _ => true, fun _ _ => true⟩, []⟩⟩

/-- A sequence of outbound scans threading the offer-record table: returns
the per-scan sent pairs and the final table. -/
def runSnipeScans (sn : OfferSniper) :
    List OfferRecordRow → List ScanRun →
      List (List (Int × String)) × List OfferRecordRow
  | recs, [] => ([], recs)
  | recs, s :: ss =>
      let out := sn.scanAndSnipe s.env s.time recs s.listings
      let rest := runSnipeScans sn out.1 ss
      (out.2.1 :: rest.1, rest.2)


/-! ### Claim C5 -/

theorem wasOfferSentRecently_of_mem (recs : List OfferRecordRow) (now : Int)
    (lid : Int) (b : String) (row : OfferRecordRow) (hrow : row ∈ recs)
    (h1 : row.listingId = lid) (h2 : row.buyerId = b)
    (h3 : now - 86400 ≤ row.sentAt) :
    wasOfferSentRecently recs now lid b = true := by
  rw [wasOfferSentRecently, List.any_eq_true]
  refine ⟨row, hrow, ?_⟩
  rw [h1, h2]
  simp [h3]

theorem snipeWatchLoop_mono (now : Int) (lid : Int) (itemId : String)
    (offerPrice pct : ℚ) (sendOk : String → String → Bool)
    (ws : List (Option String)) :
    ∀ recs r, r ∈ recs →
      r ∈ (snipeWatchLoop now lid itemId offerPrice pct sendOk recs ws).1 := by
  induction ws with
  | nil => intro recs r hr; exact hr
  | cons w ws ih =>
      intro recs r hr
      cases w with
      | none => exact ih recs r hr
      | some b =>
          rw [snipeWatchLoop]
          split
          · exact ih recs r hr
          · split
            · exact ih recs r hr
            · split
              · exact ih _ r (List.mem_append_left _ hr)
              · exact ih recs r hr

theorem snipeWatchLoop_sent (now : Int) (lid : Int) (itemId : String)
    (offerPrice pct : ℚ) (sendOk : String → String → Bool)
    (ws : List (Option String)) :
    ∀ recs x b, (x, b) ∈ (snipeWatchLoop now lid itemId offerPrice pct sendOk recs ws).2.1 →
      x = lid ∧ ∃ row ∈ (snipeWatchLoop now lid itemId offerPrice pct sendOk recs ws).1,
        row.listingId = lid ∧ row.buyerId = b ∧ row.sentAt = now := by
  induction ws with
  | nil =>
      intro recs x b h
      simp [snipeWatchLoop] at h
  | cons w ws ih =>
      intro recs x b
      cases w with
      | none => exact ih recs x b
      | some b0 =>
          rw [snipeWatchLoop]
          split
          · exact ih recs x b
          · split
            · exact ih recs x b
            · split
              · intro h
                rcases List.mem_cons.mp h with heq | hmem
                · have hx : x = lid := congrArg Prod.fst heq
                  have hb : b = b0 := congrArg Prod.snd heq
                  subst hb
                  refine ⟨hx, ?_⟩
                  refine ⟨{ listingId := lid, buyerId := b, offerPrice := offerPrice,
                            discountPercent := pct, sentAt := now,
                            status := OfferStatus.sent }, ?_, rfl, rfl, rfl⟩
                  exact snipeWatchLoop_mono now lid itemId offerPrice pct sendOk ws _ _
                    (List.mem_append_right _ (List.mem_singleton.mpr rfl))
                · exact ih _ x b hmem
              · exact ih recs x b

theorem snipeWatchLoop_block (now : Int) (lid : Int) (itemId : String)
    (offerPrice pct : ℚ) (sendOk : String → String → Bool)
    (ws : List (Option String)) :
    ∀ recs b row, row ∈ recs → row.listingId = lid → row.buyerId = b →
      now - 86400 ≤ row.sentAt →
      (lid, b) ∉ (snipeWatchLoop now lid itemId offerPrice pct sendOk recs ws).2.1 := by
  induction ws with
  | nil =>
      intro recs b row _ _ _ _ h
      simp [snipeWatchLoop] at h
  | cons w ws ih =>
      intro recs b row hrow h1 h2 h3
      cases w with
      | none => exact ih recs b row hrow h1 h2 h3
      | some b0 =>
          rw [snipeWatchLoop]
          split
          · exact ih recs b row hrow h1 h2 h3
          · split
            · exact ih recs b row hrow h1 h2 h3
            · split
              · intro h
                rcases List.mem_cons.mp h with heq | hmem
                · have hb : b = b0 := congrArg Prod.snd heq
                  subst hb
                  rename_i hcool _
                  exact hcool (wasOfferSentRecently_of_mem recs now lid b row hrow h1 h2 h3)
                · exact ih _ b row (List.mem_append_left _ hrow) h1 h2 h3 hmem
              · exact ih recs b row hrow h1 h2 h3

theorem snipeScanLoop_mono (sn : OfferSniper) (env : SnipeEnv) (now : Int)
    (ls : List Listing) :
    ∀ recs r, r ∈ recs → r ∈ (snipeScanLoop sn env now recs ls).1 := by
  induction ls with
  | nil => intro recs r hr; exact hr
  | cons l ls ih =>
      intro recs r hr
      rw [snipeScanLoop]
      split
      · exact ih recs r hr
      · split
        · exact ih recs r hr
        · exact ih _ r (snipeWatchLoop_mono _ _ _ _ _ _ _ recs r hr)

theorem snipeScanLoop_sent (sn : OfferSniper) (env : SnipeEnv) (now : Int)
    (ls : List Listing) :
    ∀ recs lid b, (lid, b) ∈ (snipeScanLoop sn env now recs ls).2.1 →
      ∃ row ∈ (snipeScanLoop sn env now recs ls).1,
        row.listingId = lid ∧ row.buyerId = b ∧ row.sentAt = now := by
  induction ls with
  | nil =>
      intro recs lid b h
      rw [snipeScanLoop] at h
      simp at h
  | cons l ls ih =>
      intro recs lid b
      rw [snipeScanLoop]
      split
      · exact ih recs lid b
      · split
        · exact ih recs lid b
        · intro h
          rcases List.mem_append.mp h with hmem | hmem
          · rcases snipeWatchLoop_sent now l.id _ _ _ env.sendOk _ recs lid b hmem
              with ⟨hx, row, hrowmem, hprops⟩
            subst hx
            exact ⟨row, snipeScanLoop_mono sn env now ls _ row hrowmem, hprops⟩
          · exact ih _ lid b hmem

theorem snipeScanLoop_block (sn : OfferSniper) (env : SnipeEnv) (now : Int)
    (ls : List Listing) :
    ∀ recs lid b row, row ∈ recs → row.listingId = lid → row.buyerId = b →
      now - 86400 ≤ row.sentAt →
      (lid, b) ∉ (snipeScanLoop sn env now recs ls).2.1 := by
  induction ls with
  | nil =>
      intro recs lid b row _ _ _ _ h
      rw [snipeScanLoop] at h
      simp at h
  | cons l ls ih =>
      intro recs lid b row hrow h1 h2 h3
      rw [snipeScanLoop]
      split
      · exact ih recs lid b row hrow h1 h2 h3
      · split
        · exact ih recs lid b row hrow h1 h2 h3
        · intro h
          rcases List.mem_append.mp h with hmem | hmem
          · rcases snipeWatchLoop_sent now l.id _ _ _ env.sendOk _ recs lid b hmem
              with ⟨hx, _⟩
            subst hx
            exact snipeWatchLoop_block now l.id _ _ _ env.sendOk _ recs b row hrow h1 h2 h3 hmem
          · exact ih _ lid b row
              (snipeWatchLoop_mono _ _ _ _ _ _ _ recs row hrow) h1 h2 h3 hmem

theorem scanAndSnipe_mono (sn : OfferSniper) (env : SnipeEnv) (now : Int)
    (recs : List OfferRecordRow) (listings : List Listing) (r : OfferRecordRow)
    (hr : r ∈ recs) : r ∈ (sn.scanAndSnipe env now recs listings).1 :=
  snipeScanLoop_mono sn env now _ recs r hr

theorem scanAndSnipe_sent (sn : OfferSniper) (env : SnipeEnv) (now : Int)
    (recs : List OfferRecordRow) (listings : List Listing) (lid : Int) (b : String)
    (h : (lid, b) ∈ (sn.scanAndSnipe env now recs listings).2.1) :
    ∃ row ∈ (sn.scanAndSnipe env now recs listings).1,
      row.listingId = lid ∧ row.buyerId = b ∧ row.sentAt = now :=
  snipeScanLoop_sent sn env now _ recs lid b h

theorem scanAndSnipe_block (sn : OfferSniper) (env : SnipeEnv) (now : Int)
    (recs : List OfferRecordRow) (listings : List Listing) (lid : Int) (b : String)
    (row : OfferRecordRow) (hrow : row ∈ recs) (h1 : row.listingId = lid)
    (h2 : row.buyerId = b) (h3 : now - 86400 ≤ row.sentAt) :
    (lid, b) ∉ (sn.scanAndSnipe env now recs listings).2.1 :=
  snipeScanLoop_block sn env now _ recs lid b row hrow h1 h2 h3

theorem runSnipeScans_block (sn : OfferSniper) (ss : List ScanRun) :
    ∀ (recs : List OfferRecordRow) (j : Nat) (lid : Int) (b : String)
      (row : OfferRecordRow), row ∈ recs → row.listingId = lid → row.buyerId = b →
      (ss.getD j default).time - 86400 ≤ row.sentAt →
      (lid, b) ∉ (runSnipeScans sn recs ss).1.getD j [] := by
  induction ss with
  | nil =>
      intro recs j lid b row _ _ _ _ h
      rw [runSnipeScans] at h
      simp at h
  | cons s ss ih =>
      intro recs j lid b row hrow h1 h2 h3
      rw [runSnipeScans]
      cases j with
      | zero =>
          rw [List.getD_cons_zero]
          exact scanAndSnipe_block sn s.env s.time recs s.listings lid b row hrow h1 h2
            (by simpa using h3)
      | succ j =>
          rw [List.getD_cons_succ]
          exact ih _ j lid b row
            (scanAndSnipe_mono sn s.env s.time recs s.listings row hrow) h1 h2
            (by simpa using h3)

/-- Claim C5: across any sequence of outbound OfferSniper scans threading
the offer-record table, once a scan sends an offer to a (listing, buyer)
pair at time `t`, no later scan whose time is before `t + 24h` (86400 s)
sends to that pair again: the record appended at the send blocks it. -/
theorem C5_offer_cooldown (sn : OfferSniper) (recs0 : List OfferRecordRow)
    (ss : List ScanRun) (i j : Nat) (lid : Int) (b : String)
    (hij : i < j)
    (hsent : (lid, b) ∈ (runSnipeScans sn recs0 ss).1.getD i [])
    (htime : (ss.getD j default).time < (ss.getD i default).time + 86400) :
    (lid, b) ∉ (runSnipeScans sn recs0 ss).1.getD j [] := by
  induction ss generalizing recs0 i j with
  | nil =>
      rw [runSnipeScans] at hsent
      simp at hsent
  | cons s ss ih =>
      rw [runSnipeScans] at hsent ⊢
      cases i with
      | zero =>
          rw [List.getD_cons_zero] at hsent
          rcases scanAndSnipe_sent sn s.env s.time recs0 s.listings lid b hsent
            with ⟨row, hrowmem, hrl, hrb, hrt⟩
          obtain ⟨j, rfl⟩ : ∃ n, j = n + 1 := ⟨j - 1, by omega⟩
          rw [List.getD_cons_succ]
          refine runSnipeScans_block sn ss _ j lid b row hrowmem hrl hrb ?_
          rw [hrt]
          rw [List.getD_cons_succ, List.getD_cons_zero] at htime
          omega
      | succ i =>
          obtain ⟨j, rfl⟩ : ∃ n, j = n + 1 := ⟨j - 1, by omega⟩
          rw [List.getD_cons_succ] at hsent ⊢
          rw [List.getD_cons_succ, List.getD_cons_succ] at htime
          exact ih _ i j (by omega) hsent htime

/-- The sniper configured with a single 5% tier. -/
def snipeDemoSniper : OfferSniper :=
  { tiers := [(0, 5)], autoAcceptThreshold := 9/10,
    counterThreshold := 3/4, counterPercent := 19/20 }

/-- A gateway environment with one watcher who always accepts sends. -/
def snipeDemoEnv : SnipeEnv :=
  { watchersOf := fun _ => [some "BUYER-1"],
    getWatchersOk := fun _ => true,
    sendOk := fun _ _ => true }

/-- An active watched listing. -/
def snipeDemoListing : Listing :=
  { id := 1, sku := "SNIPE-001", title := "Watched Item",
    ebayItemId := some "EBAY-S001", status := ListingStatus.active,
    daysActive := 14, listPrice := 50, currentPrice := some 50 }

/-- Two scans of the same listing 4000 seconds apart. -/
def snipeDemoRuns : List ScanRun :=
  [{ time := 1000, env := snipeDemoEnv, listings := [snipeDemoListing] },
   { time := 5000, env := snipeDemoEnv, listings := [snipeDemoListing] }]

/-- Claim C5, witness: `C5_offer_cooldown` on the two concrete scans — the
first sends to `(1, BUYER-1)`, the second (within 24 h) must not. -/
theorem C5_offer_cooldown_witness :
    (1, "BUYER-1") ∉ (runSnipeScans snipeDemoSniper [] snipeDemoRuns).1.getD 1 [] :=
  C5_offer_cooldown snipeDemoSniper [] snipeDemoRuns 0 1 1 "BUYER-1"
    (by decide) (by decide) (by decide)



/-! ### TitleSanitizer (`core/services/gatekeeper/title_sanitizer.py`)

The regex substitutions are embedded as character-list scans with the same
leftmost-longest semantics; inputs in this development are ASCII, where
Python's `\\w`, `\\s`, `lower()` and `upper()` agree with the `Char`
primitives used here. -/

/-- The junk character class `[!*~@#$%^&]`. -/
def isJunkChar (c : Char) : Bool :=
  c = '!' || c = '*' || c = '~' || c = '@' || c = '#'
    || c = '$' || c = '%' || c = '^' || c = '&'

/-- `\\w`. -/
def isWordChar (c : Char) : Bool := c.isAlphanum || c = '_'

/-- `\\s`. -/
def isSpaceChar (c : Char) : Bool := c.isWhitespace

/-- The class kept by `_SPECIAL_CHARS` (`[^\\w\\s\\-&/.,'+()#]`). -/
def isAllowedChar (c : Char) : Bool :=
  isWordChar c || isSpaceChar c || c = '-' || c = '&' || c = '/' || c = '.'
    || c = ',' || c = Char.ofNat 39 || c = '+' || c = '(' || c = ')' || c = '#'

def headIsJunk : List Char → Bool
  | [] => false
  | d :: _ => isJunkChar d

/-- Scan for `_JUNK_CHARS.sub("", title)` (`[!*~@#$%^&]{2,}`): a character
is removed exactly when it is junk and belongs to a junk run of length at
least two, i.e. has a junk neighbour; `prevJunk` records whether the
preceding character was junk. -/
def stripJunkRunsGo : Bool → List Char → List Char
  | _, [] => []
  | prevJunk, c :: rest =>
      if isJunkChar c && (prevJunk || headIsJunk rest) then
        stripJunkRunsGo true rest
      else c :: stripJunkRunsGo (isJunkChar c) rest

/-- `_JUNK_CHARS.sub("", title)`. -/
def stripJunkRuns (l : List Char) : List Char := stripJunkRunsGo false l

/-- `_SPECIAL_CHARS.sub("", title)`. -/
def stripSpecial (l : List Char) : List Char := l.filter isAllowedChar

def headIsSpace : List Char → Bool
  | [] => false
  | d :: _ => isSpaceChar d

/-- Scan for `_MULTI_SPACES.sub(" ", title)` (`\\s{2,}`): each maximal
whitespace run of length at least two becomes a single space; `inRun`
records being inside such a run. -/
def collapseWsGo : Bool → List Char → List Char
  | _, [] => []
  | inRun, c :: rest =>
      if isSpaceChar c then
        if inRun then collapseWsGo true rest
        else if headIsSpace rest then ' ' :: collapseWsGo true rest
        else c :: collapseWsGo false rest
      else c :: collapseWsGo false rest

/-- `_MULTI_SPACES.sub(" ", title)`. -/
def collapseWs (l : List Char) : List Char := collapseWsGo false l

/-- Python `str.strip()`. -/
def trimWs (l : List Char) : List Char :=
  ((l.dropWhile isSpaceChar).reverse.dropWhile isSpaceChar).reverse

/-- Python `str.rstrip()`. -/
def rtrimWs (l : List Char) : List Char :=
  (l.reverse.dropWhile isSpaceChar).reverse

/-- `TitleSanitizer._strip_junk`. -/
def stripJunk (l : List Char) : List Char :=
  trimWs (collapseWs (stripSpecial (stripJunkRuns l)))

/-- Python `str.split()` with no argument: split on whitespace runs,
discarding empty fields; `acc` is the current word, reversed. -/
def splitWsAux : List Char → List Char → List (List Char)
  | [], acc => if acc.isEmpty then [] else [acc.reverse]
  | c :: rest, acc =>
      if isSpaceChar c then
        if acc.isEmpty then splitWsAux rest []
        else acc.reverse :: splitWsAux rest []
      else splitWsAux rest (c :: acc)

def splitWs (l : List Char) : List (List Char) := splitWsAux l []

/-- `" ".join(words)`. -/
def joinWords : List (List Char) → List Char
  | [] => []
  | [w] => w
  | w :: ws => w ++ ' ' :: joinWords ws

def lowerChars (l : List Char) : List Char := l.map Char.toLower

def upperChars (l : List Char) : List Char := l.map Char.toUpper

/-- `_BANNED_WORDS`, in source order. -/
def bannedWords : List (List Char) :=
  ["l@@k".data, "look!".data, "look!!".data, "wow".data, "wow!".data,
   "must see".data, "a+++".data, "a++".data, "nr".data, "no reserve".data,
   "free shipping".data, "fast shipping".data, "hot".data, "sexy".data,
   "rare!".data, "amazing".data, "incredible".data, "awesome".data,
   "perfect".data, "beautiful".data, "gorgeous".data, "stunning".data,
   "excellent!".data, "great!".data, "nice!".data, "cool!".data]

/-- `word.rstrip("!")`. -/
def rstripBang (l : List Char) : List Char :=
  (l.reverse.dropWhile (fun c => c = '!')).reverse

/-- The single-word test of `_remove_banned_words`:
`w.lower().rstrip("!") in _BANNED_WORDS or w.lower() in _BANNED_WORDS`. -/
def isBannedSingle (w : List Char) : Bool :=
  bannedWords.contains (rstripBang (lowerChars w))
    || bannedWords.contains (lowerChars w)

/-- The two-word test of `_remove_banned_words`:
`f"{words[i]} {words[i+1]}".lower() in _BANNED_WORDS`. -/
def isBannedPair (w1 w2 : List Char) : Bool :=
  bannedWords.contains (lowerChars (w1 ++ ' ' :: w2))

/-- The word loop of `_remove_banned_words`: two-word phrases are checked
before single words. -/
def removeBannedLoop : List (List Char) → List (List Char)
  | [] => []
  | [w] => if isBannedSingle w then [] else [w]
  | w1 :: w2 :: rest =>
      if isBannedPair w1 w2 then removeBannedLoop rest
      else if isBannedSingle w1 then removeBannedLoop (w2 :: rest)
      else w1 :: removeBannedLoop (w2 :: rest)

/-- `TitleSanitizer._remove_banned_words`. -/
def removeBannedWords (l : List Char) : List Char :=
  joinWords (removeBannedLoop (splitWs l))

/-- `_KNOWN_ACRONYMS`, in source order. -/
def knownAcronyms : List (List Char) :=
  ["nib".data, "nwt".data, "nwb".data, "nwot".data, "euc".data, "vgc".data,
   "guc".data, "oem".data, "oob".data, "usb".data, "hdmi".data, "led".data,
   "lcd".data, "dvd".data, "cd".data, "pc".data, "tv".data, "ac".data,
   "dc".data, "xl".data, "xxl".data, "xs".data, "sm".data, "md".data,
   "lg".data, "oz".data, "ml".data, "gb".data, "tb".data, "mb".data,
   "hp".data, "ps".data, "hd".data, "sd".data, "rgb".data, "ddr".data,
   "ssd".data, "hdd".data, "rpm".data, "mph".data, "nfl".data, "nba".data,
   "mlb".data, "nhl".data, "usa".data, "uk".data, "eu".data]

/-- The class stripped by `word.strip(".,!-()#")`. -/
def isStripPunct (c : Char) : Bool :=
  c = '.' || c = ',' || c = '!' || c = '-' || c = '(' || c = ')' || c = '#'

/-- `word.strip(".,!-()#")`. -/
def stripPunct (l : List Char) : List Char :=
  ((l.dropWhile isStripPunct).reverse.dropWhile isStripPunct).reverse

/-- Python `str.capitalize()`: first character upper-cased, the rest
lower-cased. -/
def capitalizeChars : List Char → List Char
  | [] => []
  | c :: rest => c.toUpper :: lowerChars rest

/-- The per-word step of `_normalize_case`. -/
def normalizeCaseWord (w : List Char) : List Char :=
  let clean := stripPunct w
  if upperChars clean == clean && decide (1 < clean.length)
      && clean.all Char.isAlpha then
    if knownAcronyms.contains (lowerChars clean) then upperChars w
    else capitalizeChars w
  else w

/-- `TitleSanitizer._normalize_case`. -/
def normalizeCase (l : List Char) : List Char :=
  joinWords ((splitWs l).map normalizeCaseWord)

/-- Case-insensitive prefix match, as `re.IGNORECASE` compares literal
patterns on ASCII text. -/
def startsWithCI (pat s : List Char) : Bool :=
  decide (pat.length ≤ s.length) && lowerChars (s.take pat.length) == lowerChars pat

/-- Scan for `re.sub(re.escape(pat), "", s, flags=IGNORECASE)`, removing
every leftmost non-overlapping case-insensitive occurrence of `pat`; the
fuel starts at the length of `s` and dominates the number of steps. -/
def removeAllCIGo (pat : List Char) : Nat → List Char → List Char
  | 0, l => l
  | _ + 1, [] => []
  | fuel + 1, c :: rest =>
      if !pat.isEmpty && startsWithCI pat (c :: rest) then
        removeAllCIGo pat fuel ((c :: rest).drop pat.length)
      else c :: removeAllCIGo pat fuel rest

/-- `pattern.sub("", s)` for the escaped case-insensitive `pat`. -/
def removeAllCI (pat s : List Char) : List Char := removeAllCIGo pat s.length s

/-- The spec wording of step (4): only the FIRST case-insensitive
occurrence is removed.  Second definition kept for comparison with the
source's `removeAllCI`. -/
def specRemoveFirstCI (pat : List Char) : List Char → List Char
  | [] => []
  | c :: rest =>
      if !pat.isEmpty && startsWithCI pat (c :: rest) then (c :: rest).drop pat.length
      else c :: specRemoveFirstCI pat rest

/-- `remaining.lstrip("-–— ")`. -/
def lstripSeps (l : List Char) : List Char :=
  l.dropWhile (fun c =>
    c = '-' || c = Char.ofNat 8211 || c = Char.ofNat 8212 || c = ' ')

/-- `TitleSanitizer._front_load_brand_model`. -/
def frontLoadBrandModel (title : List Char) (brand model : Option (List Char)) :
    List Char :=
  let step1 :=
    match brand with
    | some b =>
        if b.isEmpty then (title, ([] : List (List Char)))
        else (trimWs (removeAllCI b title), [b])
    | none => (title, [])
  let step2 :=
    match model with
    | some m =>
        if m.isEmpty then step1
        else (trimWs (removeAllCI m step1.1), step1.2 ++ [m])
    | none => step1
  let remaining := lstripSeps (trimWs (collapseWs step2.1))
  if step2.2.isEmpty then remaining
  else if remaining.isEmpty then joinWords step2.2
  else joinWords step2.2 ++ ' ' :: remaining

/-- `_front_load_brand_model` as the spec words it: removing only the
first occurrence of brand and model. -/
def specFrontLoadBrandModel (title : List Char) (brand model : Option (List Char)) :
    List Char :=
  let step1 :=
    match brand with
    | some b =>
        if b.isEmpty then (title, ([] : List (List Char)))
        else (trimWs (specRemoveFirstCI b title), [b])
    | none => (title, [])
  let step2 :=
    match model with
    | some m =>
        if m.isEmpty then step1
        else (trimWs (specRemoveFirstCI m step1.1), step1.2 ++ [m])
    | none => step1
  let remaining := lstripSeps (trimWs (collapseWs step2.1))
  if step2.2.isEmpty then remaining
  else if remaining.isEmpty then joinWords step2.2
  else joinWords step2.2 ++ ' ' :: remaining

/-- `MAX_TITLE_LENGTH`. -/
def maxTitleLength : Nat := 80

/-- `truncated.rfind(" ")`: highest index of a space character, `-1` when
absent. -/
def rfindSpace (l : List Char) : Int :=
  match l.reverse.findIdx? (fun c => c = ' ') with
  | some k => (l.length : Int) - 1 - k
  | none => -1

/-- `TitleSanitizer._enforce_length`. -/
def enforceLength (l : List Char) : List Char :=
  if l.length ≤ maxTitleLength then l
  else
    let truncated := l.take maxTitleLength
    let lastSpace := rfindSpace truncated
    if (maxTitleLength : Int) / 2 < lastSpace then
      rtrimWs (truncated.take lastSpace.toNat)
    else rtrimWs truncated

def startsWithChars (pat s : List Char) : Bool :=
  decide (pat.length ≤ s.length) && s.take pat.length == pat

/-- Python substring containment `pat in s`. -/
def containsSub (pat : List Char) : List Char → Bool
  | [] => pat.isEmpty
  | c :: rest => startsWithChars pat (c :: rest) || containsSub pat rest

def checkFrontOne (front : List Char) : Option (List Char) → Bool
  | some b => b.isEmpty || containsSub (lowerChars b) front
  | none => true

/-- `TitleSanitizer._check_brand_model_front`. -/
def checkBrandModelFront (title : List Char) (brand model : Option (List Char)) :
    Bool :=
  let front := lowerChars (title.take 30)
  checkFrontOne front brand && checkFrontOne front model

/-- `TitleSanitizeResponse` (`core/schemas/title.py`). -/
structure TitleSanitizeResponse where
  original : String
  sanitized : String
  changes : List String
  length : Nat
  brandModelInFront : Bool
deriving DecidableEq, Repr

/-- `TitleSanitizer.sanitize`: the full pipeline. -/
def sanitize (title : String) (brand model : Option String) :
    TitleSanitizeResponse :=
  let t0 := title.data
  let t1 := stripJunk t0
  let c1 : List String := if t1 ≠ t0 then ["Removed junk characters"] else []
  let t2 := removeBannedWords t1
  let c2 : List String := if t2 ≠ t1 then ["Removed spam words"] else []
  let t3 := normalizeCase t2
  let c3 : List String := if t3 ≠ t2 then ["Normalized casing"] else []
  let t4 :=
    if truthyStr brand || truthyStr model then
      frontLoadBrandModel t3 (brand.map String.data) (model.map String.data)
    else t3
  let c4 : List String := if t4 ≠ t3 then ["Moved brand/model to front"] else []
  let t5 := enforceLength t4
  let c5 : List String := if t5 ≠ t4 then ["Trimmed to 80 chars"] else []
  let t6 := trimWs (collapseWs t5)
  let changes := c1 ++ c2 ++ c3 ++ c4 ++ c5
  { original := title
    sanitized := String.mk t6
    changes := if changes.isEmpty then ["No changes needed"] else changes
    length := t6.length
    brandModelInFront :=
      checkBrandModelFront t6 (brand.map String.data) (model.map String.data) }


/-! Char-level facts used by the sanitizer proofs. -/

theorem uint32_le_iff_toNat_le (a b : UInt32) : a ≤ b ↔ a.toNat ≤ b.toNat := by
  rw [UInt32.le_def, BitVec.le_def]
  rfl

theorem char_isLower_bounds (c : Char) (h : c.isLower = true) :
    97 ≤ c.toNat ∧ c.toNat ≤ 122 := by
  simp only [Char.isLower, ge_iff_le, Bool.and_eq_true, decide_eq_true_eq] at h
  constructor
  · have := (uint32_le_iff_toNat_le 97 c.val).mp h.1
    simpa using this
  · have := (uint32_le_iff_toNat_le c.val 122).mp h.2
    simpa using this

theorem char_isUpper_bounds (c : Char) (h : c.isUpper = true) :
    65 ≤ c.toNat ∧ c.toNat ≤ 90 := by
  simp only [Char.isUpper, ge_iff_le, Bool.and_eq_true, decide_eq_true_eq] at h
  constructor
  · have := (uint32_le_iff_toNat_le 65 c.val).mp h.1
    simpa using this
  · have := (uint32_le_iff_toNat_le c.val 90).mp h.2
    simpa using this

theorem char_isDigit_bounds (c : Char) (h : c.isDigit = true) :
    48 ≤ c.toNat ∧ c.toNat ≤ 57 := by
  simp only [Char.isDigit, ge_iff_le, Bool.and_eq_true, decide_eq_true_eq] at h
  constructor
  · have := (uint32_le_iff_toNat_le 48 c.val).mp h.1
    simpa using this
  · have := (uint32_le_iff_toNat_le c.val 57).mp h.2
    simpa using this

theorem char_bounds_isLower (c : Char) (h1 : 97 ≤ c.toNat) (h2 : c.toNat ≤ 122) :
    c.isLower = true := by
  simp only [Char.isLower, ge_iff_le, Bool.and_eq_true, decide_eq_true_eq]
  constructor
  · exact (uint32_le_iff_toNat_le 97 c.val).mpr (by simpa using h1)
  · exact (uint32_le_iff_toNat_le c.val 122).mpr (by simpa using h2)

theorem char_toNat_ofNat (n : Nat) (h : n.isValidChar) : (Char.ofNat n).toNat = n := by
  rw [Char.ofNat, dif_pos h]
  rfl

theorem char_toUpper_ne_of_isLower (c : Char) (h : c.isLower = true) :
    c.toUpper ≠ c := by
  obtain ⟨h1, h2⟩ := char_isLower_bounds c h
  rw [Char.toUpper]
  simp only [ge_iff_le]
  rw [if_pos ⟨h1, h2⟩]
  intro heq
  have hv : (Char.ofNat (c.toNat - 32)).toNat = c.toNat - 32 :=
    char_toNat_ofNat _ (Or.inl (by omega))
  have := congrArg Char.toNat heq
  rw [hv] at this
  omega

theorem char_isDigit_not_alpha (c : Char) (h : c.isDigit = true) :
    c.isAlpha = false := by
  obtain ⟨h1, h2⟩ := char_isDigit_bounds c h
  rw [Char.isAlpha]
  cases hu : c.isUpper with
  | true => obtain ⟨h3, _⟩ := char_isUpper_bounds c hu; omega
  | false =>
      cases hl : c.isLower with
      | true => obtain ⟨h3, _⟩ := char_isLower_bounds c hl; omega
      | false => rfl

theorem char_toLower_of_not_alpha (c : Char) (h : c.isAlpha = false) :
    c.toLower = c := by
  rw [Char.toLower]
  simp only [ge_iff_le]
  rw [if_neg]
  intro hc
  have hup : c.isUpper = true := by
    simp only [Char.isUpper, ge_iff_le, Bool.and_eq_true, decide_eq_true_eq]
    exact ⟨(uint32_le_iff_toNat_le 65 c.val).mpr (by simpa using hc.1),
      (uint32_le_iff_toNat_le c.val 90).mpr (by simpa using hc.2)⟩
  rw [Char.isAlpha, hup] at h
  simp at h

theorem char_toLower_alpha (c : Char) (h : c.isAlpha = true) :
    c.toLower.isAlpha = true := by
  rw [Char.toLower]
  simp only [ge_iff_le]
  by_cases hc : 65 ≤ c.toNat ∧ c.toNat ≤ 90
  · rw [if_pos hc]
    have hv : (Char.ofNat (c.toNat + 32)).toNat = c.toNat + 32 :=
      char_toNat_ofNat _ (Or.inl (by omega))
    rw [Char.isAlpha, char_bounds_isLower _ (by omega) (by omega)]
    simp
  · rw [if_neg hc]
    exact h


/-- The character class of the C3 normal form: ASCII lowercase letters and
digits. -/
def goodChar (c : Char) : Bool := c.isLower || c.isDigit

/-- A normal-form word: nonempty, lowercase letters and digits only. -/
def goodWord (w : List Char) : Bool := !w.isEmpty && w.all goodChar

theorem goodChar_not_junk (c : Char) (h : goodChar c = true) :
    isJunkChar c = false := by
  cases hj : isJunkChar c with
  | false => rfl
  | true =>
      exfalso
      simp only [isJunkChar, Bool.or_eq_true, decide_eq_true_eq] at hj
      rcases hj with ((((((((rfl | rfl) | rfl) | rfl) | rfl) | rfl) | rfl) | rfl) | rfl) <;>
        simp [goodChar, Char.isLower, Char.isDigit] at h

theorem goodChar_not_space (c : Char) (h : goodChar c = true) :
    isSpaceChar c = false := by
  cases hj : isSpaceChar c with
  | false => rfl
  | true =>
      exfalso
      simp only [isSpaceChar, Char.isWhitespace, Bool.or_eq_true,
        decide_eq_true_eq] at hj
      rcases hj with ((rfl | rfl) | rfl) | rfl <;>
        simp [goodChar, Char.isLower, Char.isDigit] at h

theorem goodChar_not_punct (c : Char) (h : goodChar c = true) :
    isStripPunct c = false := by
  cases hj : isStripPunct c with
  | false => rfl
  | true =>
      exfalso
      simp only [isStripPunct, Bool.or_eq_true, decide_eq_true_eq] at hj
      rcases hj with (((((rfl | rfl) | rfl) | rfl) | rfl) | rfl) | rfl <;>
        simp [goodChar, Char.isLower, Char.isDigit] at h

theorem goodChar_allowed (c : Char) (h : goodChar c = true) :
    isAllowedChar c = true := by
  simp only [goodChar, Bool.or_eq_true] at h
  rcases h with h | h <;>
    simp [isAllowedChar, isWordChar, Char.isAlphanum, Char.isAlpha, h]


theorem goodWord_spec (w : List Char) (h : goodWord w = true) :
    w ≠ [] ∧ ∀ c ∈ w, goodChar c = true := by
  simp only [goodWord, Bool.and_eq_true, Bool.not_eq_true', List.all_eq_true] at h
  refine ⟨?_, h.2⟩
  intro hw
  rw [hw] at h
  simp at h

theorem dropWhile_eq_self_of_head (p : Char → Bool) (l : List Char)
    (h : ∀ d, l.head? = some d → p d = false) : l.dropWhile p = l := by
  cases l with
  | nil => rfl
  | cons c rest =>
      rw [List.dropWhile_cons, h c rfl]
      simp

theorem dropWhile_eq_self_of_all (p : Char → Bool) (l : List Char)
    (h : ∀ c ∈ l, p c = false) : l.dropWhile p = l := by
  cases l with
  | nil => rfl
  | cons c rest =>
      rw [List.dropWhile_cons, h c (List.mem_cons_self c rest)]
      simp

theorem stripJunkRunsGo_id (l : List Char) (h : ∀ c ∈ l, isJunkChar c = false) :
    ∀ b, stripJunkRunsGo b l = l := by
  induction l with
  | nil => intro b; rfl
  | cons c rest ih =>
      intro b
      rw [stripJunkRunsGo]
      have hc : isJunkChar c = false := h c (List.mem_cons_self c rest)
      rw [hc]
      simp only [Bool.false_and, if_false, Bool.false_eq_true]
      rw [ih (fun d hd => h d (List.mem_cons_of_mem c hd)) false]

theorem collapseWsGo_append (w t : List Char) (h : ∀ c ∈ w, isSpaceChar c = false) :
    collapseWsGo false (w ++ t) = w ++ collapseWsGo false t := by
  induction w with
  | nil => rfl
  | cons c rest ih =>
      rw [List.cons_append, collapseWsGo]
      have hc : isSpaceChar c = false := h c (List.mem_cons_self c rest)
      rw [hc]
      simp only [Bool.false_eq_true, if_false]
      rw [ih (fun d hd => h d (List.mem_cons_of_mem c hd))]
      rfl

theorem headIsSpace_join (w : List Char) (ws : List (List Char))
    (hw : w ≠ []) (h : ∀ c ∈ w, isSpaceChar c = false) :
    headIsSpace (joinWords (w :: ws)) = false := by
  cases w with
  | nil => exact absurd rfl hw
  | cons d tl =>
      cases ws with
      | nil => exact h d (List.mem_cons_self d tl)
      | cons w2 ws2 => exact h d (List.mem_cons_self d tl)

theorem collapseWs_join (ws : List (List Char))
    (h : ∀ w ∈ ws, w ≠ [] ∧ ∀ c ∈ w, isSpaceChar c = false) :
    collapseWs (joinWords ws) = joinWords ws := by
  induction ws with
  | nil => rfl
  | cons w ws ih =>
      cases ws with
      | nil =>
          show collapseWsGo false w = w
          have hap := collapseWsGo_append w [] (h w (List.mem_cons_self w [])).2
          have h0 : collapseWsGo false ([] : List Char) = [] := rfl
          rw [List.append_nil] at hap
          rw [hap, h0, List.append_nil]
      | cons w2 ws2 =>
          show collapseWsGo false (w ++ ' ' :: joinWords (w2 :: ws2)) = _
          rw [collapseWsGo_append w _ (h w (List.mem_cons_self w _)).2]
          rw [collapseWsGo]
          have hsp : isSpaceChar ' ' = true := by decide
          rw [hsp]
          have hhd : headIsSpace (joinWords (w2 :: ws2)) = false :=
            headIsSpace_join w2 ws2 (h w2 (by simp)).1 (h w2 (by simp)).2
          rw [hhd]
          simp only [if_true, if_false, Bool.false_eq_true, Bool.true_eq_false]
          have hih := ih (fun x hx => h x (List.mem_cons_of_mem w hx))
          show w ++ ' ' :: collapseWsGo false (joinWords (w2 :: ws2)) = _
          rw [show collapseWsGo false (joinWords (w2 :: ws2))
              = collapseWs (joinWords (w2 :: ws2)) from rfl, hih]
          rfl

theorem head?_join (w : List Char) (ws : List (List Char)) (hw : w ≠ []) :
    (joinWords (w :: ws)).head? = w.head? := by
  cases w with
  | nil => exact absurd rfl hw
  | cons d tl =>
      cases ws with
      | nil => rfl
      | cons w2 ws2 => rfl

theorem joinWords_append_singleton (xs : List (List Char)) (y : List Char)
    (hxs : xs ≠ []) :
    joinWords (xs ++ [y]) = joinWords xs ++ ' ' :: y := by
  induction xs with
  | nil => exact absurd rfl hxs
  | cons x xs ih =>
      cases xs with
      | nil => rfl
      | cons x2 xs2 =>
          show x ++ ' ' :: joinWords ((x2 :: xs2) ++ [y]) = _
          rw [ih (by simp)]
          show _ = (x ++ ' ' :: joinWords (x2 :: xs2)) ++ ' ' :: y
          rw [List.append_assoc]
          rfl

theorem reverse_join (ws : List (List Char)) :
    (joinWords ws).reverse = joinWords ((ws.map List.reverse).reverse) := by
  induction ws with
  | nil => rfl
  | cons w ws ih =>
      cases ws with
      | nil => rfl
      | cons w2 ws2 =>
          show (w ++ ' ' :: joinWords (w2 :: ws2)).reverse = _
          rw [List.reverse_append, List.reverse_cons, ih]
          have hne : ((w2 :: ws2).map List.reverse).reverse ≠ [] := by simp
          rw [show ((w :: w2 :: ws2).map List.reverse).reverse
              = ((w2 :: ws2).map List.reverse).reverse ++ [w.reverse] by simp]
          rw [joinWords_append_singleton _ _ hne]
          simp

theorem trimWs_join (ws : List (List Char))
    (h : ∀ w ∈ ws, w ≠ [] ∧ ∀ c ∈ w, isSpaceChar c = false) :
    trimWs (joinWords ws) = joinWords ws := by
  cases ws with
  | nil => rfl
  | cons w ws2 =>
      rw [trimWs]
      have h1 : (joinWords (w :: ws2)).dropWhile isSpaceChar = joinWords (w :: ws2) := by
        apply dropWhile_eq_self_of_head
        intro d hd
        rw [head?_join w ws2 (h w (List.mem_cons_self w ws2)).1] at hd
        cases w with
        | nil => simp at hd
        | cons c tl =>
            have : c = d := by simpa using hd
            exact this ▸ (h _ (List.mem_cons_self _ ws2)).2 c (List.mem_cons_self c tl)
      rw [h1]
      have h2 : (joinWords (w :: ws2)).reverse.dropWhile isSpaceChar
          = (joinWords (w :: ws2)).reverse := by
        apply dropWhile_eq_self_of_head
        intro d hd
        rw [reverse_join] at hd
        have hLne : (((w :: ws2).map List.reverse).reverse) ≠ [] := by simp
        obtain ⟨y, ys, hy⟩ := List.exists_cons_of_ne_nil hLne
        have hymem : y ∈ ((w :: ws2).map List.reverse).reverse := by
          rw [hy]
          exact List.mem_cons_self y ys
        rw [List.mem_reverse, List.mem_map] at hymem
        obtain ⟨x, hxmem, hxy⟩ := hymem
        have hxne : x ≠ [] := (h x hxmem).1
        have hyne : y ≠ [] := by
          rw [← hxy]
          simpa using hxne
        rw [hy, head?_join y ys hyne] at hd
        cases hyy : y with
        | nil => exact absurd hyy hyne
        | cons c tl =>
            rw [hyy] at hd
            have hcd : c = d := by simpa using hd
            have hcy : c ∈ y := by rw [hyy]; exact List.mem_cons_self c tl
            have hcx : c ∈ x := by
              rw [← hxy] at hcy
              exact List.mem_reverse.mp hcy
            exact hcd ▸ (h x hxmem).2 c hcx
      rw [h2, List.reverse_reverse]


theorem splitWsAux_chunk (w : List Char) (h : ∀ c ∈ w, isSpaceChar c = false) :
    ∀ l acc, splitWsAux (w ++ l) acc = splitWsAux l (w.reverse ++ acc) := by
  induction w with
  | nil => intro l acc; rfl
  | cons c rest ih =>
      intro l acc
      rw [List.cons_append, splitWsAux]
      have hc : isSpaceChar c = false := h c (List.mem_cons_self c rest)
      rw [hc]
      simp only [Bool.false_eq_true, if_false]
      rw [ih (fun d hd => h d (List.mem_cons_of_mem c hd)) l (c :: acc)]
      rw [List.reverse_cons, List.append_assoc]
      rfl

theorem splitWs_join (ws : List (List Char))
    (h : ∀ w ∈ ws, w ≠ [] ∧ ∀ c ∈ w, isSpaceChar c = false) :
    splitWs (joinWords ws) = ws := by
  induction ws with
  | nil => rfl
  | cons w ws2 ih =>
      cases ws2 with
      | nil =>
          show splitWsAux (joinWords [w]) [] = [w]
          have hjw : joinWords [w] = w ++ [] := by rw [List.append_nil]; rfl
          rw [hjw, splitWsAux_chunk w (h w (List.mem_cons_self w [])).2 [] []]
          rw [splitWsAux]
          have hwne : w ≠ [] := (h w (List.mem_cons_self w [])).1
          have hne : (w.reverse ++ []).isEmpty = false := by
            rw [List.append_nil]
            cases hrev : w.reverse with
            | nil => exact absurd (List.reverse_eq_nil_iff.mp hrev) hwne
            | cons a b => rfl
          rw [hne]
          simp
      | cons w2 ws3 =>
          show splitWsAux (w ++ ' ' :: joinWords (w2 :: ws3)) [] = _
          rw [splitWsAux_chunk w (h w (List.mem_cons_self w _)).2 _ []]
          rw [splitWsAux]
          have hsp : isSpaceChar ' ' = true := by decide
          rw [hsp]
          have hwne : w ≠ [] := (h w (List.mem_cons_self w _)).1
          have hne : (w.reverse ++ []).isEmpty = false := by
            rw [List.append_nil]
            cases hrev : w.reverse with
            | nil => exact absurd (List.reverse_eq_nil_iff.mp hrev) hwne
            | cons a b => rfl
          rw [hne]
          simp only [if_true, if_false, Bool.false_eq_true, Bool.true_eq_false]
          rw [show splitWsAux (joinWords (w2 :: ws3)) [] = splitWs (joinWords (w2 :: ws3)) from rfl]
          rw [ih (fun x hx => h x (List.mem_cons_of_mem w hx))]
          simp

/-- No adjacent pair of words forms a banned phrase. -/
def noBannedPairs : List (List Char) → Bool
  | [] => true
  | [_] => true
  | w1 :: w2 :: rest => !isBannedPair w1 w2 && noBannedPairs (w2 :: rest)

theorem removeBannedLoop_id (ws : List (List Char))
    (hS : ∀ w ∈ ws, isBannedSingle w = false)
    (hP : noBannedPairs ws = true) :
    removeBannedLoop ws = ws := by
  induction ws with
  | nil => rfl
  | cons w1 ws ih =>
      cases ws with
      | nil =>
          show (if isBannedSingle w1 then [] else [w1]) = [w1]
          rw [hS w1 (List.mem_cons_self w1 [])]
          simp
      | cons w2 rest =>
          rw [removeBannedLoop]
          rw [noBannedPairs, Bool.and_eq_true, Bool.not_eq_true'] at hP
          rw [hP.1, hS w1 (List.mem_cons_self w1 _)]
          simp only [Bool.false_eq_true, if_false]
          rw [ih (fun x hx => hS x (List.mem_cons_of_mem w1 hx)) hP.2]

theorem map_elem_eq_self {α : Type} (f : α → α) (l : List α) (h : l.map f = l) :
    ∀ c ∈ l, f c = c := by
  induction l with
  | nil => intro c hc; simp at hc
  | cons a l ih =>
      rw [List.map_cons] at h
      have h2 := (List.cons.injEq _ _ _ _).mp h
      intro c hc
      rcases List.mem_cons.mp hc with rfl | hc
      · exact h2.1
      · exact ih h2.2 c hc

theorem normalizeCaseWord_id (w : List Char) (hg : goodWord w = true) :
    normalizeCaseWord w = w := by
  obtain ⟨hne, hall⟩ := goodWord_spec w hg
  have hclean : stripPunct w = w := by
    rw [stripPunct]
    rw [dropWhile_eq_self_of_all _ w
      (fun c hc => goodChar_not_punct c (hall c hc))]
    rw [dropWhile_eq_self_of_all _ w.reverse
      (fun c hc => goodChar_not_punct c (hall c (List.mem_reverse.mp hc)))]
    exact List.reverse_reverse w
  rw [normalizeCaseWord]
  simp only [hclean]
  by_cases hlow : ∃ c ∈ w, c.isLower = true
  · obtain ⟨c, hcmem, hclow⟩ := hlow
    have hbe : (upperChars w == w) = false := by
      cases hb : upperChars w == w with
      | false => rfl
      | true =>
          exfalso
          have heq : upperChars w = w := by
            exact eq_of_beq hb
          exact absurd (map_elem_eq_self Char.toUpper w heq c hcmem)
            (char_toUpper_ne_of_isLower c hclow)
    rw [hbe]
    simp
  · have hdig : ∀ c ∈ w, c.isDigit = true := by
      intro c hc
      have hgc := hall c hc
      simp only [goodChar, Bool.or_eq_true] at hgc
      rcases hgc with hgc | hgc
      · exact absurd ⟨c, hc, hgc⟩ hlow
      · exact hgc
    obtain ⟨c0, tl, rfl⟩ : ∃ a l2, w = a :: l2 := by
      cases w with
      | nil => exact absurd rfl hne
      | cons a l2 => exact ⟨a, l2, rfl⟩
    have hna : ((c0 :: tl).all Char.isAlpha) = false := by
      cases ha : (c0 :: tl).all Char.isAlpha with
      | false => rfl
      | true =>
          exfalso
          have h1 := (List.all_eq_true.mp ha) c0 (List.mem_cons_self c0 tl)
          rw [char_isDigit_not_alpha c0 (hdig c0 (List.mem_cons_self c0 tl))] at h1
          exact Bool.false_ne_true h1
    rw [hna]
    simp

theorem map_id_of_elem {α : Type} (f : α → α) (l : List α) (h : ∀ c ∈ l, f c = c) :
    l.map f = l := by
  induction l with
  | nil => rfl
  | cons a l ih =>
      rw [List.map_cons, h a (List.mem_cons_self a l),
        ih (fun c hc => h c (List.mem_cons_of_mem a hc))]

theorem mem_join_chars (ws : List (List Char)) (c : Char) (hc : c ∈ joinWords ws) :
    c = ' ' ∨ ∃ w ∈ ws, c ∈ w := by
  induction ws with
  | nil => simp [joinWords] at hc
  | cons w ws2 ih =>
      cases ws2 with
      | nil => exact Or.inr ⟨w, List.mem_cons_self w [], hc⟩
      | cons w2 ws3 =>
          have hc2 : c ∈ w ++ ' ' :: joinWords (w2 :: ws3) := hc
          rcases List.mem_append.mp hc2 with h | h
          · exact Or.inr ⟨w, List.mem_cons_self w _, h⟩
          · rcases List.mem_cons.mp h with rfl | h
            · exact Or.inl rfl
            · rcases ih h with h | ⟨x, hx, hcx⟩
              · exact Or.inl h
              · exact Or.inr ⟨x, List.mem_cons_of_mem w hx, hcx⟩

theorem enforceLength_id (l : List Char) (h : l.length ≤ maxTitleLength) :
    enforceLength l = l := by
  rw [enforceLength, if_pos h]

theorem sanitized_none_eq (title : String) :
    (sanitize title none none).sanitized
      = String.mk (trimWs (collapseWs (enforceLength
          (normalizeCase (removeBannedWords (stripJunk title.data)))))) := rfl

theorem sanitize_fixed (ws : List (List Char))
    (hW : ∀ w ∈ ws, goodWord w = true)
    (hS : ∀ w ∈ ws, isBannedSingle w = false)
    (hP : noBannedPairs ws = true)
    (hL : (joinWords ws).length ≤ 80) :
    (sanitize (String.mk (joinWords ws)) none none).sanitized
      = String.mk (joinWords ws) := by
  have hwordsSpace : ∀ w ∈ ws, w ≠ [] ∧ ∀ c ∈ w, isSpaceChar c = false := by
    intro w hw
    obtain ⟨h1, h2⟩ := goodWord_spec w (hW w hw)
    exact ⟨h1, fun c hc => goodChar_not_space c (h2 c hc)⟩
  have hjoinChar : ∀ c ∈ joinWords ws, c = ' ' ∨ goodChar c = true := by
    intro c hc
    rcases mem_join_chars ws c hc with h | ⟨w, hw, hcw⟩
    · exact Or.inl h
    · exact Or.inr ((goodWord_spec w (hW w hw)).2 c hcw)
  have hjunk : stripJunkRuns (joinWords ws) = joinWords ws := by
    apply stripJunkRunsGo_id
    intro c hc
    rcases hjoinChar c hc with rfl | h
    · decide
    · exact goodChar_not_junk c h
  have hspecial : stripSpecial (joinWords ws) = joinWords ws := by
    rw [stripSpecial, List.filter_eq_self]
    intro c hc
    rcases hjoinChar c hc with rfl | h
    · decide
    · exact goodChar_allowed c h
  have hcollapse := collapseWs_join ws hwordsSpace
  have htrim := trimWs_join ws hwordsSpace
  have hstripJunk : stripJunk (joinWords ws) = joinWords ws := by
    rw [stripJunk, hjunk, hspecial, hcollapse, htrim]
  have hsplit := splitWs_join ws hwordsSpace
  have hbanned : removeBannedWords (joinWords ws) = joinWords ws := by
    rw [removeBannedWords, hsplit, removeBannedLoop_id ws hS hP]
  have hnorm : normalizeCase (joinWords ws) = joinWords ws := by
    rw [normalizeCase, hsplit]
    rw [map_id_of_elem normalizeCaseWord ws
      (fun w hw => normalizeCaseWord_id w (hW w hw))]
  rw [sanitized_none_eq]
  show String.mk (trimWs (collapseWs (enforceLength
      (normalizeCase (removeBannedWords (stripJunk (joinWords ws))))))) = _
  rw [hstripJunk, hbanned, hnorm, enforceLength_id _ hL, hcollapse, htrim]


/-- Claim C3 counterexample: sanitize is NOT idempotent.  "must hot see"
sanitizes to "must see" (the banned word "hot" is dropped), but the pair
("must", "see") is itself a banned pair created by that deletion, so a
second sanitize pass yields "" ≠ "must see". -/
theorem C3_idempotence_counterexample :
    (sanitize (sanitize "must hot see" none none).sanitized none none).sanitized
      ≠ (sanitize "must hot see" none none).sanitized
      ∧ (sanitize "must hot see" none none).sanitized = "must see"
      ∧ (sanitize "must see" none none).sanitized = "" := by
  refine ⟨by decide, by decide, by decide⟩

/-- Claim C3 (amended): sanitize is idempotent on titles already in
sanitized form - words of allowed characters with no junk, correct case
and no punctuation to strip, none banned, no adjacent banned pair, total
length within the 80-character limit.  On a general title a deletion can
create a new banned pair, so a second pass can differ (see the
counterexample). -/
theorem C3_sanitize_idempotent_on_clean_titles (ws : List (List Char))
    (hW : ∀ w ∈ ws, goodWord w = true)
    (hS : ∀ w ∈ ws, isBannedSingle w = false)
    (hP : noBannedPairs ws = true)
    (hL : (joinWords ws).length ≤ 80) :
    (sanitize ((sanitize (String.mk (joinWords ws)) none none).sanitized)
        none none).sanitized
      = (sanitize (String.mk (joinWords ws)) none none).sanitized := by
  rw [sanitize_fixed ws hW hS hP hL]
  exact sanitize_fixed ws hW hS hP hL

theorem C3_sanitize_idempotent_witness :
    (sanitize ((sanitize (String.mk (joinWords
          ["vintage".data, "leather".data, "jacket".data])) none none).sanitized)
        none none).sanitized
      = (sanitize (String.mk (joinWords
          ["vintage".data, "leather".data, "jacket".data])) none none).sanitized :=
  C3_sanitize_idempotent_on_clean_titles
    ["vintage".data, "leather".data, "jacket".data]
    (by decide) (by decide) (by decide) (by decide)


theorem lowerChars_cons (c : Char) (l : List Char) :
    lowerChars (c :: l) = c.toLower :: lowerChars l := rfl

theorem removeAllCIGo_nil (pat : List Char) (fuel : Nat) :
    removeAllCIGo pat fuel [] = [] := by
  cases fuel with
  | zero => rfl
  | succ f => rfl

theorem removeAllCIGo_fuel_eq (pat : List Char) :
    ∀ (fuel1 : Nat) (l : List Char) (fuel2 : Nat), l.length ≤ fuel1 →
      l.length ≤ fuel2 → removeAllCIGo pat fuel1 l = removeAllCIGo pat fuel2 l := by
  intro fuel1
  induction fuel1 with
  | zero =>
      intro l fuel2 h1 _
      have hl : l = [] := List.eq_nil_of_length_eq_zero (Nat.le_zero.mp h1)
      rw [hl, removeAllCIGo_nil, removeAllCIGo_nil]
  | succ f1 ih =>
      intro l fuel2 h1 h2
      cases l with
      | nil => rw [removeAllCIGo_nil, removeAllCIGo_nil]
      | cons c rest =>
          obtain ⟨f2, rfl⟩ : ∃ n, fuel2 = n + 1 := by
            cases fuel2 with
            | zero => simp at h2
            | succ n => exact ⟨n, rfl⟩
          rw [removeAllCIGo, removeAllCIGo]
          simp only [List.length_cons] at h1 h2
          by_cases hcond : (!pat.isEmpty && startsWithCI pat (c :: rest)) = true
          · rw [if_pos hcond, if_pos hcond]
            have hplen : 1 ≤ pat.length := by
              cases hp : pat with
              | nil => rw [hp] at hcond; simp at hcond
              | cons a b => simp
            apply ih
            · rw [List.length_drop]
              simp only [List.length_cons]
              omega
            · rw [List.length_drop]
              simp only [List.length_cons]
              omega
          · rw [if_neg hcond, if_neg hcond]
            rw [ih rest f2 (by omega) (by omega)]

/-- Case folding preserves length. -/
theorem lowerChars_length (l : List Char) : (lowerChars l).length = l.length :=
  List.length_map _ _

/-- A decomposition of a string into the segments the `re.sub` scan keeps
(first components) and the case-insensitive matches it removes (second
components), followed by a final kept tail. -/
def assemble : List (List Char × List Char) → List Char → List Char
  | [], tail => tail
  | (u, p) :: rest, tail => u ++ (p ++ assemble rest tail)

/-- The text surviving the scan: the kept segments and the tail. -/
def keepParts : List (List Char × List Char) → List Char → List Char
  | [], tail => tail
  | (u, _) :: rest, tail => u ++ keepParts rest tail

/-- No case-insensitive match of `pat` begins at any position inside `u`
when `u` is followed by `t` - exactly the condition under which the
leftmost scan keeps all of `u`. -/
def noMatchInside (pat u t : List Char) : Bool :=
  (List.range u.length).all (fun j => !startsWithCI pat (List.drop j (u ++ t)))

/-- The decomposition is the one the leftmost non-overlapping scan finds:
every removed segment is a case-insensitive copy of `pat`, no match starts
inside a kept segment, and none starts in the tail. -/
def goodChunks (pat : List Char) : List (List Char × List Char) → List Char → Bool
  | [], tail => noMatchInside pat tail []
  | (u, p) :: rest, tail =>
      lowerChars p == lowerChars pat
        && noMatchInside pat u (p ++ assemble rest tail)
        && goodChunks pat rest tail

theorem noMatchInside_spec (pat u t : List Char)
    (h : noMatchInside pat u t = true) (j : Nat) (hj : j < u.length) :
    startsWithCI pat (List.drop j (u ++ t)) = false := by
  rw [noMatchInside, List.all_eq_true] at h
  have hh := h j (List.mem_range.mpr hj)
  simpa using hh

theorem removeAllCIGo_skip_chunk (pat : List Char) :
    ∀ (u t : List Char) (fuel : Nat),
      (∀ j, j < u.length → startsWithCI pat (List.drop j (u ++ t)) = false) →
      (u ++ t).length ≤ fuel →
      removeAllCIGo pat fuel (u ++ t) = u ++ removeAllCIGo pat (fuel - u.length) t := by
  intro u
  induction u with
  | nil =>
      intro t fuel _ _
      simp
  | cons c u2 ih =>
      intro t fuel h hlen
      simp only [List.cons_append, List.length_cons, List.length_append] at hlen
      obtain ⟨f, rfl⟩ : ∃ n, fuel = n + 1 := ⟨fuel - 1, by omega⟩
      rw [List.cons_append, removeAllCIGo]
      have h0 : startsWithCI pat (c :: (u2 ++ t)) = false := by
        have hh := h 0 (by simp)
        simpa using hh
      rw [h0]
      simp only [Bool.and_false, Bool.false_eq_true, if_false]
      rw [ih t f (fun j hj => by
            have hh := h (j + 1) (by simp only [List.length_cons]; omega)
            simpa using hh)
          (by simp only [List.length_append]; omega)]
      simp only [List.length_cons, Nat.succ_sub_succ, List.cons_append]

theorem removeAllCIGo_match_chunk_ci (pat p t : List Char) (fuel : Nat)
    (hpat : pat ≠ []) (hp : lowerChars p = lowerChars pat)
    (hlen : (p ++ t).length ≤ fuel) :
    removeAllCIGo pat fuel (p ++ t) = removeAllCIGo pat (fuel - pat.length) t := by
  have hplen : p.length = pat.length := by
    have h := congrArg List.length hp
    simpa [lowerChars_length] using h
  have hpatpos : 0 < pat.length := List.length_pos.mpr hpat
  obtain ⟨p0, p2, rfl⟩ : ∃ a l2, p = a :: l2 := by
    cases p with
    | nil => simp at hplen; omega
    | cons a l2 => exact ⟨a, l2, rfl⟩
  have hplen2 : p2.length + 1 = pat.length := by simpa using hplen
  simp only [List.cons_append, List.length_cons, List.length_append] at hlen
  obtain ⟨f, rfl⟩ : ∃ n, fuel = n + 1 := ⟨fuel - 1, by omega⟩
  rw [List.cons_append, removeAllCIGo]
  have hne : (!pat.isEmpty) = true := by
    cases pat with
    | nil => exact absurd rfl hpat
    | cons a l2 => rfl
  have hsw : startsWithCI pat (p0 :: (p2 ++ t)) = true := by
    rw [startsWithCI, Bool.and_eq_true]
    constructor
    · simp only [decide_eq_true_eq, List.length_cons, List.length_append]
      omega
    · have htake : (p0 :: (p2 ++ t)).take pat.length = p0 :: p2 := by
        rw [show p0 :: (p2 ++ t) = (p0 :: p2) ++ t from rfl, ← hplen]
        exact List.take_left _ _
      rw [htake, hp]
      exact beq_self_eq_true _
  rw [if_pos (by rw [Bool.and_eq_true]; exact ⟨hne, hsw⟩)]
  have hdrop : (p0 :: (p2 ++ t)).drop pat.length = t := by
    rw [show p0 :: (p2 ++ t) = (p0 :: p2) ++ t from rfl, ← hplen]
    exact List.drop_left _ _
  rw [hdrop]
  apply removeAllCIGo_fuel_eq
  · omega
  · omega

theorem removeAllCIGo_assemble (pat : List Char) (hpat : pat ≠ []) :
    ∀ (chunks : List (List Char × List Char)) (tail : List Char) (fuel : Nat),
      goodChunks pat chunks tail = true →
      (assemble chunks tail).length ≤ fuel →
      removeAllCIGo pat fuel (assemble chunks tail) = keepParts chunks tail := by
  intro chunks
  induction chunks with
  | nil =>
      intro tail fuel hg hlen
      rw [assemble] at hlen ⊢
      rw [keepParts]
      rw [goodChunks] at hg
      have h := removeAllCIGo_skip_chunk pat tail [] fuel
        (fun j hj => noMatchInside_spec pat tail [] hg j hj)
        (by simpa using hlen)
      rw [List.append_nil] at h
      rw [h, removeAllCIGo_nil, List.append_nil]
  | cons cp rest ih =>
      intro tail fuel hg hlen
      obtain ⟨u, p⟩ := cp
      rw [goodChunks] at hg
      simp only [Bool.and_eq_true, beq_iff_eq] at hg
      obtain ⟨⟨hp, hnm⟩, hrest⟩ := hg
      rw [assemble] at hlen ⊢
      rw [keepParts]
      simp only [List.length_append] at hlen
      have hplen : p.length = pat.length := by
        have h := congrArg List.length hp
        simpa [lowerChars_length] using h
      rw [removeAllCIGo_skip_chunk pat u (p ++ assemble rest tail) fuel
        (fun j hj => noMatchInside_spec pat u _ hnm j hj)
        (by simp only [List.length_append]; omega)]
      rw [removeAllCIGo_match_chunk_ci pat p (assemble rest tail) (fuel - u.length)
        hpat hp (by simp only [List.length_append]; omega)]
      rw [ih tail (fuel - u.length - pat.length) hrest (by omega)]

/-- Claim C9 (amended): in the front-loading step EVERY case-insensitive
occurrence of the brand and then of the model is removed from the title
before the brand and model are prefixed, not only the first occurrence:
for any non-empty brand and model patterns (letters, digits or spaces
alike) and any title, decomposed as the leftmost non-overlapping scan
sees it - kept segments interleaved with case-insensitive copies of the
pattern - `_front_load_brand_model` deletes all the copies of the brand,
then all the copies of the model from what is left, and prefixes
"brand model" to the surviving text. -/
theorem C9_frontload_removes_all (b m title : List Char)
    (chunksB : List (List Char × List Char)) (tailB : List Char)
    (chunksM : List (List Char × List Char)) (tailM : List Char)
    (hb : b ≠ []) (hm : m ≠ [])
    (htitle : title = assemble chunksB tailB)
    (hB : goodChunks b chunksB tailB = true)
    (hmid : trimWs (keepParts chunksB tailB) = assemble chunksM tailM)
    (hM : goodChunks m chunksM tailM = true) :
    frontLoadBrandModel title (some b) (some m)
      = (if (lstripSeps (trimWs (collapseWs
            (trimWs (keepParts chunksM tailM))))).isEmpty
         then joinWords [b, m]
         else joinWords [b, m]
           ++ ' ' :: lstripSeps (trimWs (collapseWs
                (trimWs (keepParts chunksM tailM))))) := by
  have hbe : b.isEmpty = false := by
    cases b with
    | nil => exact absurd rfl hb
    | cons a l => rfl
  have hme : m.isEmpty = false := by
    cases m with
    | nil => exact absurd rfl hm
    | cons a l => rfl
  have hrb : removeAllCI b title = keepParts chunksB tailB := by
    rw [htitle, removeAllCI]
    exact removeAllCIGo_assemble b hb chunksB tailB _ hB (le_refl _)
  have hrm : removeAllCI m (assemble chunksM tailM) = keepParts chunksM tailM := by
    rw [removeAllCI]
    exact removeAllCIGo_assemble m hm chunksM tailM _ hM (le_refl _)
  rw [frontLoadBrandModel]
  simp only [hbe, hme, Bool.false_eq_true, if_false, hrb, hmid, hrm,
    List.cons_append, List.nil_append, List.isEmpty_cons]

/-- Claim C9 counterexample: on title "Nike foo Nike" with brand "Nike",
the code's front-load (which removes all occurrences via `re.sub`) yields
"Nike foo", while the spec's wording (remove only the first occurrence)
yields "Nike foo Nike"; the two differ. -/
theorem C9_frontload_counterexample :
    frontLoadBrandModel (String.data "Nike foo Nike")
        (some (String.data "Nike")) none = String.data "Nike foo"
      ∧ specFrontLoadBrandModel (String.data "Nike foo Nike")
        (some (String.data "Nike")) none = String.data "Nike foo Nike"
      ∧ frontLoadBrandModel (String.data "Nike foo Nike")
          (some (String.data "Nike")) none
        ≠ specFrontLoadBrandModel (String.data "Nike foo Nike")
          (some (String.data "Nike")) none := ⟨by decide, by decide, by decide⟩


theorem C9_frontload_removes_all_witness :
    frontLoadBrandModel (String.data "Nike Air Jordan 1 shoe nike AIR JORDAN 1")
        (some (String.data "Nike")) (some (String.data "Air Jordan 1"))
      = String.data "Nike Air Jordan 1 shoe" := by
  rw [C9_frontload_removes_all (String.data "Nike") (String.data "Air Jordan 1")
    (String.data "Nike Air Jordan 1 shoe nike AIR JORDAN 1")
    [([], String.data "Nike"),
     (String.data " Air Jordan 1 shoe ", String.data "nike")]
    (String.data " AIR JORDAN 1")
    [([], String.data "Air Jordan 1"),
     (String.data " shoe  ", String.data "AIR JORDAN 1")]
    []
    (by decide) (by decide) (by decide) (by decide) (by decide) (by decide)]
  decide

end FlipFlow
